import Mathlib

/-!
# Path_Initializer (DICe_Initializer.cpp): quantizer, triad catalog, neighbor table, initial guess

A shallow embedding of `src/src/core/DICe_Initializer.cpp`.

Conventions of the embedding:
* `scalar_t` values are exact rationals (`ℚ`); rounding error, NaN and infinities of `double`
  are not modelled. The one exception is `quantize_double`, which follows the quantization
  step in double arithmetic, every operation rounded to the nearest `double`.
* `size_t` values are natural numbers; the one place where a signed value is converted to
  `size_t` (`int_t id = -1` handed to a `size_t` parameter) is reduced modulo `2 ^ 64`.
* `std::set<def_triad>` is represented by its in-order sequence of elements.
* `assert` and `TEUCHOS_TEST_FOR_EXCEPTION` are fatal: the constructor returns an error.
* an out-of-range `std::vector` access has no defined result: the operation returns `none`.
-/

namespace DICe

/-! ## Data model -/

/-- The struct `def_triad` of the header: a displacement `u_`, `v_` and a rotation `t_`. -/
structure def_triad where
  u_ : ℚ
  v_ : ℚ
  t_ : ℚ
deriving DecidableEq

/-- One entry of `Point_Cloud<scalar_t>::pts`. -/
structure Point where
  x : ℚ
  y : ℚ
  z : ℚ
deriving DecidableEq

/-- The comparison `operator<(const def_triad& lhs, const def_triad& rhs)`, lines 53-63.
The innermost branch compares `lhs.t_` with `lhs.t_`, as the source does. -/
def operator_lt (lhs rhs : def_triad) : Bool :=
  if lhs.u_ = rhs.u_ then
    if lhs.v_ = rhs.v_ then
      decide (lhs.t_ < lhs.t_)
    else
      decide (lhs.v_ < rhs.v_)
  else
    decide (lhs.u_ < rhs.u_)

/-- The comparison `operator==(const def_triad& lhs, const def_triad& rhs)`, lines 64-66. -/
def operator_eq (lhs rhs : def_triad) : Bool :=
  decide (lhs.u_ = rhs.u_) && decide (lhs.v_ = rhs.v_) && decide (lhs.t_ = rhs.t_)

/-- The lexicographic order named by the specification: key `u`, then `v`, then `t`. -/
def lex_lt (a b : def_triad) : Prop :=
  a.u_ < b.u_ ∨ (a.u_ = b.u_ ∧ a.v_ < b.v_) ∨ (a.u_ = b.u_ ∧ a.v_ = b.v_ ∧ a.t_ < b.t_)

instance (a b : def_triad) : Decidable (lex_lt a b) := by
  unfold lex_lt; infer_instance

/-! ## Quantization (constructor, lines 99-102) -/

/-- The three rounding assignments of the constructor loop followed by
`def_triad uvt(u_tmp,v_tmp,t_tmp)`. -/
def quantize (u_tmp v_tmp t_tmp : ℚ) : def_triad :=
  let u_tmp : ℚ := (⌊(u_tmp * 2) + 0.5⌋ : ℤ) / 2
  let v_tmp : ℚ := (⌊(v_tmp * 2) + 0.5⌋ : ℤ) / 2
  let t_tmp : ℚ := (⌊t_tmp * 100 + 0.5⌋ : ℤ) / 100
  def_triad.mk u_tmp v_tmp t_tmp

/-- The effect of `triads_.insert(uvt)` on the in-order sequence of the `std::set<def_triad>`,
whose comparator is `operator<`: the new element is placed before the first element it is less
than, and it is dropped when an element equivalent to it (neither less than the other) is
already present. -/
def set_insert (uvt : def_triad) : List def_triad → List def_triad
  | [] => [uvt]
  | y :: ys =>
    if operator_lt uvt y then uvt :: y :: ys
    else if operator_lt y uvt then y :: set_insert uvt ys
    else y :: ys

/-- The loop of lines 97-104. The input is the sequence of raw samples `(u_tmp, v_tmp, t_tmp)`
held after the stream extraction of each of the `num_lines` iterations. -/
def read_triads : List (ℚ × ℚ × ℚ) → List def_triad → List def_triad
  | [], triads_ => triads_
  | (u_tmp, v_tmp, t_tmp) :: rest, triads_ =>
    read_triads rest (set_insert (quantize u_tmp v_tmp t_tmp) triads_)

/-- The loop of lines 112-119: `pts[id]` receives the coordinates of the `id`-th element of
`triads_` in iteration order. -/
def make_point_cloud (triads_ : List def_triad) : List Point :=
  triads_.map (fun it => Point.mk it.u_ it.v_ it.t_)

/-! ## Spatial index -/

/-- Squared Euclidean distance between the query point and a point of the cloud. -/
def dist_sqr (query_pt p : Point) : ℚ :=
  (query_pt.x - p.x) ^ 2 + (query_pt.y - p.y) ^ 2 + (query_pt.z - p.z) ^ 2

/-- Modelled from the spec: the result set of the kd-tree's k-nearest query (the kd-tree
library is not among the sources). It is an exact nearest-neighbour search over the point
cloud: the ids with their squared distances in ascending distance, equal distances in
ascending id, cut to `num_closest` results. -/
def knn_result (pts : List Point) (query_pt : Point) (num_closest : Nat) : List (Nat × ℚ) :=
  ((pts.enum.map (fun ip => (ip.1, dist_sqr query_pt ip.2))).insertionSort
    (fun a b => a.2 ≤ b.2)).take num_closest

/-- Writing `found` over the first entries of the output array `out`; entries of `out` past the
results keep their value and the array keeps its size. -/
def overwrite_front {α : Type} (found out : List α) : List α :=
  (found ++ out.drop found.length).take out.length

/-- The call `kd_tree_->knnSearch(query_pt, num_closest, out_indices, out_distances_sq)`: the
ids and squared distances of the result set are written to the front of the two output
arrays. -/
def knnSearch (pts : List Point) (query_pt : Point) (num_closest : Nat)
    (out_indices : List Nat) (out_distances_sq : List ℚ) : List Nat × List ℚ :=
  let found := knn_result pts query_pt num_closest
  (overwrite_front (found.map Prod.fst) out_indices,
   overwrite_front (found.map Prod.snd) out_distances_sq)

/-! ## Neighbor table (constructor, lines 124-142) -/

/-- The inner loop of lines 138-140: `neighbors_[id*num_neighbors_ + i] = ret_index[i]` for
`i = 0 .. num_neighbors_ - 1`. -/
def fill_row (neighbors_ : List Nat) (id num_neighbors_ : Nat) (ret_index : List Nat) :
    List Nat :=
  (List.range num_neighbors_).foldl
    (fun nb i => nb.set (id * num_neighbors_ + i) (ret_index.getD i 0)) neighbors_

/-- The loop of lines 132-142 over the remaining elements of `triads_`, with the running `id`,
the arrays `ret_index` and `out_dist_sqr` (which persist across iterations) and the table. -/
def neighbor_loop (pts : List Point) (num_neighbors_ : Nat) :
    List def_triad → Nat → List Nat → List ℚ → List Nat → List Nat
  | [], _, _, _, neighbors_ => neighbors_
  | it :: rest, id, ret_index, out_dist_sqr, neighbors_ =>
    let query_pt := Point.mk it.u_ it.v_ it.t_
    let r := knnSearch pts query_pt num_neighbors_ ret_index out_dist_sqr
    neighbor_loop pts num_neighbors_ rest (id + 1) r.1 r.2
      (fill_row neighbors_ id num_neighbors_ r.1)

/-- Lines 125-142: the table starts as `num_triads_*num_neighbors_` zeros, `ret_index` and
`out_dist_sqr` as `num_neighbors_` zeros. -/
def make_neighbors (triads_ : List def_triad) (pts : List Point) (num_triads_ num_neighbors_ : Nat) :
    List Nat :=
  neighbor_loop pts num_neighbors_ triads_ 0
    (List.replicate num_neighbors_ 0) (List.replicate num_neighbors_ 0)
    (List.replicate (num_triads_ * num_neighbors_) 0)

/-! ## The initializer -/

/-- The data members of `Path_Initializer` used by the code. The kd-tree is an index over
`point_cloud_` and is represented by it. -/
structure Path_Initializer where
  num_triads_ : Nat
  num_neighbors_ : Nat
  triads_ : List def_triad
  point_cloud_ : List Point
  neighbors_ : List Nat

/-- The fatal exits of the constructor. -/
inductive Ctor_Error where
  | assert_num_neighbors
  | unable_to_load_path_file
  | assert_num_triads
deriving DecidableEq

/-- The constructor `Path_Initializer::Path_Initializer`, lines 68-143. `path_file` is `none`
when the file cannot be opened, and otherwise the raw samples read by the `num_lines`
iterations of the parsing loop. -/
def Path_Initializer.construct (path_file : Option (List (ℚ × ℚ × ℚ))) (num_neighbors : Nat) :
    Except Ctor_Error Path_Initializer :=
  if ¬ (num_neighbors > 0) then Except.error Ctor_Error.assert_num_neighbors
  else
    match path_file with
    | none => Except.error Ctor_Error.unable_to_load_path_file
    | some lines =>
      let triads_ := read_triads lines []
      let num_triads_ := triads_.length
      if ¬ (num_triads_ > 0) then Except.error Ctor_Error.assert_num_triads
      else
        let pts := make_point_cloud triads_
        Except.ok
          { num_triads_ := num_triads_
            num_neighbors_ := num_neighbors
            triads_ := triads_
            point_cloud_ := pts
            neighbors_ := make_neighbors triads_ pts num_triads_ num_neighbors }

/-- Conversion of a signed integer to `size_t` (64 bits). -/
def size_t_of_int (i : ℤ) : Nat := (i % 2 ^ 64).toNat

/-- The id that `closest_triad` computes in `ret_index[0]` after its 1-nearest query. -/
def Path_Initializer.nearest_id (self : Path_Initializer) (u v t : ℚ) : Option Nat :=
  (knnSearch self.point_cloud_ (Point.mk u v t) 1
    (List.replicate self.num_neighbors_ 0) (List.replicate self.num_neighbors_ 0)).1[0]?

/-- The method `Path_Initializer::closest_triad`, lines 145-161, as seen by its caller: the
pair of the caller's `id` and `distance_sqr` after the call. `distance_sqr` is a reference
parameter and receives `out_dist_sqr[0]`. `id` is declared `size_t id`, a value parameter:
the assignment `id = ret_index[0]` changes the copy local to the method, and the caller's
variable keeps the value that was passed. -/
def Path_Initializer.closest_triad (self : Path_Initializer) (u v t : ℚ)
    (id : Nat) (_distance_sqr : ℚ) : Option (Nat × ℚ) :=
  let query_pt := Point.mk u v t
  let ret_index : List Nat := List.replicate self.num_neighbors_ 0
  let out_dist_sqr : List ℚ := List.replicate self.num_neighbors_ 0
  let r := knnSearch self.point_cloud_ query_pt 1 ret_index out_dist_sqr
  match r.1[0]?, r.2[0]? with
  | some _id_local, some d => some (id, d)
  | _, _ => none

/-- Modelled from the spec: the accessor `neighbor(triad_id, neighbor_index)` of the header
(not among the sources), the entry `neighbor_index` of the row of `triad_id` in the neighbor
table, laid out as in lines 138-140; no result outside the table. The index is computed in
`size_t`. -/
def Path_Initializer.neighbor (self : Path_Initializer) (triad_id neighbor_index : Nat) :
    Option Nat :=
  self.neighbors_[(triad_id * self.num_neighbors_ + neighbor_index) % 2 ^ 64]?

/-- The positions of the three deformation entries the code writes (constants of a header that
is not among the sources). -/
structure Field_Names where
  DISPLACEMENT_X : Nat
  DISPLACEMENT_Y : Nat
  ROTATION_Z : Nat

/-- The three writes `(*deformation)[DISPLACEMENT_X] = a; (*deformation)[DISPLACEMENT_Y] = b;
(*deformation)[ROTATION_Z] = c`, in this order. -/
def write_uvt (F : Field_Names) (deformation : Nat → ℚ) (a b c : ℚ) : Nat → ℚ :=
  Function.update (Function.update (Function.update deformation F.DISPLACEMENT_X a)
    F.DISPLACEMENT_Y b) F.ROTATION_Z c

/-- The local variables of the search loops together with the deformation buffer. -/
structure Search_State where
  deformation : Nat → ℚ
  best_u : ℚ
  best_v : ℚ
  best_t : ℚ
  best_gamma : ℚ

/-- The body shared by both search loops once the candidate point is known (lines 192-209 and
227-244): write the candidate, score it with the oracle (`initialize`,
`turn_off_obstructed_pixels`, `gamma()`, a function of the deformation buffer), and keep it
when its score is strictly below the running best. -/
def score_candidate (F : Field_Names) (gamma : (Nat → ℚ) → ℚ) (st : Search_State) (p : Point) :
    Search_State :=
  let deformation := write_uvt F st.deformation p.x p.y p.z
  let g := gamma deformation
  if g < st.best_gamma then
    { deformation := deformation
      best_u := deformation F.DISPLACEMENT_X
      best_v := deformation F.DISPLACEMENT_Y
      best_t := deformation F.ROTATION_Z
      best_gamma := g }
  else
    { st with deformation := deformation }

/-- The loop of lines 190-210 over the remaining values of `neigh`. `neighbor` is the accessor
of the header, `none` when it has no result; `pts[neigh_id]` has no result out of range. -/
def seeded_loop (self : Path_Initializer) (F : Field_Names) (neighbor : Nat → Nat → Option Nat)
    (gamma : (Nat → ℚ) → ℚ) (id : Nat) : List Nat → Search_State → Option Search_State
  | [], st => some st
  | neigh :: rest, st =>
    match neighbor id neigh with
    | none => none
    | some neigh_id =>
      match self.point_cloud_[neigh_id]? with
      | none => none
      | some p => seeded_loop self F neighbor gamma id rest (score_candidate F gamma st p)

/-- The seeded `Path_Initializer::initial_guess(deformation, u, v, t)`, lines 163-215. Returns
`best_gamma` and the deformation buffer after the call. The local `int_t id = -1` is handed to
`closest_triad` and then to `neighbor`, both taking a `size_t`. -/
def Path_Initializer.initial_guess_seeded (self : Path_Initializer) (F : Field_Names)
    (neighbor : Nat → Nat → Option Nat) (gamma : (Nat → ℚ) → ℚ)
    (deformation : Nat → ℚ) (u v t : ℚ) : Option (ℚ × (Nat → ℚ)) :=
  let id : ℤ := -1
  let dist : ℚ := 0
  match self.closest_triad u v t (size_t_of_int id) dist with
  | none => none
  | some (id, _dist) =>
    let deformation := write_uvt F deformation u v t
    let gamma0 := gamma deformation
    let st : Search_State :=
      { deformation := deformation, best_u := u, best_v := v, best_t := t, best_gamma := gamma0 }
    match seeded_loop self F neighbor gamma id (List.range self.num_neighbors_) st with
    | none => none
    | some st => some (st.best_gamma, write_uvt F st.deformation st.best_u st.best_v st.best_t)

/-- The loop of lines 226-245 over the remaining values of `id`. -/
def unseeded_loop (self : Path_Initializer) (F : Field_Names) (gamma : (Nat → ℚ) → ℚ) :
    List Nat → Search_State → Option Search_State
  | [], st => some st
  | id :: rest, st =>
    match self.point_cloud_[id]? with
    | none => none
    | some p => unseeded_loop self F gamma rest (score_candidate F gamma st p)

/-- The unseeded `Path_Initializer::initial_guess(deformation)`, lines 217-250. -/
def Path_Initializer.initial_guess (self : Path_Initializer) (F : Field_Names)
    (gamma : (Nat → ℚ) → ℚ) (deformation : Nat → ℚ) : Option (ℚ × (Nat → ℚ)) :=
  let st : Search_State :=
    { deformation := deformation, best_u := 0, best_v := 0, best_t := 0, best_gamma := 100 }
  match unseeded_loop self F gamma (List.range self.num_triads_) st with
  | none => none
  | some st => some (st.best_gamma, write_uvt F st.deformation st.best_u st.best_v st.best_t)

/-- The quantized triad of one input line `(u, v, t)`. -/
def quantize_line (line : ℚ × ℚ × ℚ) : def_triad :=
  quantize line.1 line.2.1 line.2.2

/-- Two triads have the same `(u, v)` pair. -/
def same_uv (a b : def_triad) : Prop := a.u_ = b.u_ ∧ a.v_ = b.v_

/-! ## Projective transform (class Triangulation) -/

/-- The data member of `Triangulation` that holds the coefficients of the projective
transform. -/
structure Triangulation where
  projectives_ : List ℚ

/-- Modelled from the spec: `Triangulation::set_projectives(projectives)` (the implementation
of the class is not among the sources, only its test is) installs the 8 coefficients. -/
def Triangulation.set_projectives (self : Triangulation) (projectives : List ℚ) :
    Triangulation :=
  { self with projectives_ := projectives }

/-- Modelled from the spec: `Triangulation::project_left_to_right_sensor_coords(xl, yl, xr, yr)`
(the implementation of the class is not among the sources, only its test is) applies the
installed 8-parameter projective mapping to the left sensor point and returns `(xr, yr)`:
two linear forms in `(xl, yl, 1)` over a common denominator whose constant coefficient is 1. -/
def Triangulation.project_left_to_right_sensor_coords (self : Triangulation) (xl yl : ℚ) :
    ℚ × ℚ :=
  let proj := fun i => self.projectives_.getD i 0
  ((proj 0 * xl + proj 1 * yl + proj 2) / (proj 6 * xl + proj 7 * yl + 1),
   (proj 3 * xl + proj 4 * yl + proj 5) / (proj 6 * xl + proj 7 * yl + 1))

/-! ## Order facts used by the sort of the search results -/

instance : IsTotal (Nat × ℚ) (fun a b => a.2 ≤ b.2) := ⟨fun a b => le_total a.2 b.2⟩

instance : IsTrans (Nat × ℚ) (fun a b => a.2 ≤ b.2) := ⟨fun _ _ _ h1 h2 => le_trans h1 h2⟩

/-! ## Concrete inputs used in the examples -/

/-- The initializer built from the lines `0 0 0` and `1 0 0` with one neighbor. -/
def two_triads : Path_Initializer :=
  { num_triads_ := 2, num_neighbors_ := 1,
    triads_ := [def_triad.mk 0 0 0, def_triad.mk 1 0 0],
    point_cloud_ := [Point.mk 0 0 0, Point.mk 1 0 0],
    neighbors_ := [0, 1] }

/-- The deformation entries at positions 0, 1 and 2. -/
def fields_012 : Field_Names :=
  { DISPLACEMENT_X := 0, DISPLACEMENT_Y := 1, ROTATION_Z := 2 }

end DICe

namespace DICe

/-! ## Quantizer facts -/

theorem half_floor_bounds (x : ℚ) :
    |((⌊x * 2 + 0.5⌋ : ℤ) : ℚ) / 2 - x| ≤ 1 / 4 := by
  have h1 := Int.floor_le (x * 2 + 0.5)
  have h2 := Int.lt_floor_add_one (x * 2 + 0.5)
  generalize (⌊x * 2 + 0.5⌋ : ℤ) = n at h1 h2
  have e : (0.5 : ℚ) = 1 / 2 := by norm_num
  rw [e] at h1 h2
  rw [abs_le]
  constructor <;> linarith

theorem hundredth_floor_bounds (x : ℚ) :
    |((⌊x * 100 + 0.5⌋ : ℤ) : ℚ) / 100 - x| ≤ 1 / 200 := by
  have h1 := Int.floor_le (x * 100 + 0.5)
  have h2 := Int.lt_floor_add_one (x * 100 + 0.5)
  generalize (⌊x * 100 + 0.5⌋ : ℤ) = n at h1 h2
  have e : (0.5 : ℚ) = 1 / 2 := by norm_num
  rw [e] at h1 h2
  rw [abs_le]
  constructor <;> linarith

theorem floor_int_add_half (n : ℤ) : ⌊(n : ℚ) + 0.5⌋ = n := by
  rw [Int.floor_eq_iff]
  constructor <;> norm_num

/-- C1: over exact rational arithmetic the quantization step yields
`u' = floor(2u + 1/2)/2`, `v' = floor(2v + 1/2)/2`, `t' = floor(100t + 1/2)/100`; `u'` and `v'`
are integer multiples of `1/2` within `1/4` of `u` and `v`, `t'` is an integer multiple of
`1/100` within `1/200` of `t`, and an exact half-way value rounds up (`1/4` to `1/2`, `-1/4` to
`0`, and in general `n/2 - 1/4` to `n/2`, `n/100 - 1/200` to `n/100`). -/
theorem quantize_grid (u v t : ℚ) :
    ((quantize u v t).u_ = (⌊2 * u + 1 / 2⌋ : ℤ) / 2
      ∧ (quantize u v t).v_ = (⌊2 * v + 1 / 2⌋ : ℤ) / 2
      ∧ (quantize u v t).t_ = (⌊100 * t + 1 / 2⌋ : ℤ) / 100)
    ∧ ((∃ m : ℤ, (quantize u v t).u_ = m * (1 / 2)) ∧ |(quantize u v t).u_ - u| ≤ 1 / 4)
    ∧ ((∃ m : ℤ, (quantize u v t).v_ = m * (1 / 2)) ∧ |(quantize u v t).v_ - v| ≤ 1 / 4)
    ∧ ((∃ m : ℤ, (quantize u v t).t_ = m * (1 / 100)) ∧ |(quantize u v t).t_ - t| ≤ 1 / 200)
    ∧ ((quantize (1 / 4) v t).u_ = 1 / 2 ∧ (quantize (-1 / 4) v t).u_ = 0)
    ∧ (∀ n : ℤ, (quantize ((n : ℚ) / 2 - 1 / 4) v t).u_ = (n : ℚ) / 2
        ∧ (quantize u ((n : ℚ) / 2 - 1 / 4) t).v_ = (n : ℚ) / 2
        ∧ (quantize u v ((n : ℚ) / 100 - 1 / 200)).t_ = (n : ℚ) / 100) := by
  have e : (0.5 : ℚ) = 1 / 2 := by norm_num
  refine ⟨⟨?_, ?_, ?_⟩, ⟨⟨⌊u * 2 + 0.5⌋, ?_⟩, half_floor_bounds u⟩,
    ⟨⟨⌊v * 2 + 0.5⌋, ?_⟩, half_floor_bounds v⟩,
    ⟨⟨⌊t * 100 + 0.5⌋, ?_⟩, hundredth_floor_bounds t⟩, ⟨?_, ?_⟩, ?_⟩
  · show ((⌊u * 2 + 0.5⌋ : ℤ) : ℚ) / 2 = _
    rw [e, mul_comm]
  · show ((⌊v * 2 + 0.5⌋ : ℤ) : ℚ) / 2 = _
    rw [e, mul_comm]
  · show ((⌊t * 100 + 0.5⌋ : ℤ) : ℚ) / 100 = _
    rw [e, mul_comm]
  · show ((⌊u * 2 + 0.5⌋ : ℤ) : ℚ) / 2 = _
    ring
  · show ((⌊v * 2 + 0.5⌋ : ℤ) : ℚ) / 2 = _
    ring
  · show ((⌊t * 100 + 0.5⌋ : ℤ) : ℚ) / 100 = _
    ring
  · show ((⌊(1 / 4 : ℚ) * 2 + 0.5⌋ : ℤ) : ℚ) / 2 = _
    have h : (1 / 4 : ℚ) * 2 + 0.5 = ((1 : ℤ) : ℚ) := by norm_num
    rw [h, Int.floor_intCast]
    norm_num
  · show ((⌊(-1 / 4 : ℚ) * 2 + 0.5⌋ : ℤ) : ℚ) / 2 = _
    have h : (-1 / 4 : ℚ) * 2 + 0.5 = ((0 : ℤ) : ℚ) := by norm_num
    rw [h, Int.floor_intCast]
    norm_num
  · intro n
    refine ⟨?_, ?_, ?_⟩
    · show ((⌊((n : ℚ) / 2 - 1 / 4) * 2 + 0.5⌋ : ℤ) : ℚ) / 2 = _
      have h : ((n : ℚ) / 2 - 1 / 4) * 2 + 0.5 = (n : ℚ) := by rw [e]; ring
      rw [h, Int.floor_intCast]
    · show ((⌊((n : ℚ) / 2 - 1 / 4) * 2 + 0.5⌋ : ℤ) : ℚ) / 2 = _
      have h : ((n : ℚ) / 2 - 1 / 4) * 2 + 0.5 = (n : ℚ) := by rw [e]; ring
      rw [h, Int.floor_intCast]
    · show ((⌊((n : ℚ) / 100 - 1 / 200) * 100 + 0.5⌋ : ℤ) : ℚ) / 100 = _
      have h : ((n : ℚ) / 100 - 1 / 200) * 100 + 0.5 = (n : ℚ) := by rw [e]; ring
      rw [h, Int.floor_intCast]

/-- C3: at `a = (0, 0, 0)`, `b = (0, 0, 1)` the specified order has `a < b`, while the code's
`operator<` answers false for `a < b` and for `b < a` and `operator==` answers false: none of
the three alternatives holds, because the last key compares `lhs.t_` with itself. -/
theorem operator_lt_ignores_t :
    lex_lt (def_triad.mk 0 0 0) (def_triad.mk 0 0 1)
    ∧ operator_lt (def_triad.mk 0 0 0) (def_triad.mk 0 0 1) = false
    ∧ operator_lt (def_triad.mk 0 0 1) (def_triad.mk 0 0 0) = false
    ∧ operator_eq (def_triad.mk 0 0 0) (def_triad.mk 0 0 1) = false := by
  refine ⟨?_, ?_, ?_, ?_⟩
  · right; right; norm_num
  · simp [operator_lt]
  · simp [operator_lt]
  · simp [operator_eq]

/-- C4: for the two input lines `0 0 0` and `0 0 1` the quantized triads are `(0, 0, 0)` and
`(0, 0, 1)`, which differ in `t` only; the catalog built by the code is `[(0, 0, 0)]`, so the
quantization of the second line is not in the catalog. -/
theorem catalog_drops_same_uv :
    quantize 0 0 0 = def_triad.mk 0 0 0
    ∧ quantize 0 0 1 = def_triad.mk 0 0 1
    ∧ read_triads [(0, 0, 0), (0, 0, 1)] [] = [def_triad.mk 0 0 0]
    ∧ quantize 0 0 1 ∉ read_triads [(0, 0, 0), (0, 0, 1)] [] := by
  have q0 : quantize 0 0 0 = def_triad.mk 0 0 0 := by
    have h : (0 : ℚ) * 2 + 0.5 = ((0 : ℤ) : ℚ) + 0.5 := by norm_num
    have h100 : (0 : ℚ) * 100 + 0.5 = ((0 : ℤ) : ℚ) + 0.5 := by norm_num
    simp only [quantize, h, h100, floor_int_add_half]
    norm_num
  have q1 : quantize 0 0 1 = def_triad.mk 0 0 1 := by
    have h : (0 : ℚ) * 2 + 0.5 = ((0 : ℤ) : ℚ) + 0.5 := by norm_num
    have h100 : (1 : ℚ) * 100 + 0.5 = ((100 : ℤ) : ℚ) + 0.5 := by norm_num
    simp only [quantize, h, h100, floor_int_add_half]
    norm_num
  have r : read_triads [(0, 0, 0), (0, 0, 1)] [] = [def_triad.mk 0 0 0] := by
    simp only [read_triads, q0, q1, set_insert, operator_lt]
    simp
  refine ⟨q0, q1, r, ?_⟩
  rw [r, q1]
  simp

/-! ## The comparator and the catalog -/

theorem operator_lt_iff (a b : def_triad) :
    operator_lt a b = true ↔ a.u_ < b.u_ ∨ (a.u_ = b.u_ ∧ a.v_ < b.v_) := by
  unfold operator_lt
  by_cases hu : a.u_ = b.u_
  · by_cases hv : a.v_ = b.v_
    · simp [hu, hv]
    · simp [hu, hv]
  · simp [hu]

theorem operator_lt_trans {a b c : def_triad} (hab : operator_lt a b = true)
    (hbc : operator_lt b c = true) : operator_lt a c = true := by
  rw [operator_lt_iff] at *
  rcases hab with h1 | ⟨h1, h2⟩ <;> rcases hbc with h3 | ⟨h3, h4⟩
  · exact Or.inl (lt_trans h1 h3)
  · exact Or.inl (h3 ▸ h1)
  · exact Or.inl (h1 ▸ h3)
  · exact Or.inr ⟨h1.trans h3, lt_trans h2 h4⟩

theorem operator_lt_lex {a b : def_triad} (h : operator_lt a b = true) : lex_lt a b := by
  rw [operator_lt_iff] at h
  rcases h with h | h
  · exact Or.inl h
  · exact Or.inr (Or.inl h)

theorem lex_lt_ne {a b : def_triad} (h : lex_lt a b) : a ≠ b := by
  rintro rfl
  rcases h with h | ⟨_, h⟩ | ⟨_, _, h⟩ <;> exact lt_irrefl _ h

theorem operator_eq_iff (a b : def_triad) : operator_eq a b = true ↔ a = b := by
  cases a; cases b
  simp [operator_eq, and_assoc]

theorem mem_set_insert {x z : def_triad} {l : List def_triad} (h : z ∈ set_insert x l) :
    z = x ∨ z ∈ l := by
  induction l with
  | nil => simpa [set_insert] using h
  | cons y ys ih =>
    unfold set_insert at h
    split_ifs at h with h1 h2
    · rcases List.mem_cons.mp h with h | h
      · exact Or.inl h
      · exact Or.inr h
    · rcases List.mem_cons.mp h with h | h
      · exact Or.inr (h ▸ List.mem_cons_self _ _)
      · rcases ih h with h | h
        · exact Or.inl h
        · exact Or.inr (List.mem_cons_of_mem _ h)
    · exact Or.inr h

theorem set_insert_pairwise (x : def_triad) {l : List def_triad}
    (hl : l.Pairwise (fun a b => operator_lt a b = true)) :
    (set_insert x l).Pairwise (fun a b => operator_lt a b = true) := by
  induction l with
  | nil => simp [set_insert]
  | cons y ys ih =>
    have hy := List.pairwise_cons.mp hl
    unfold set_insert
    split_ifs with h1 h2
    · refine List.pairwise_cons.mpr ⟨?_, hl⟩
      intro z hz
      rcases List.mem_cons.mp hz with rfl | hz
      · exact h1
      · exact operator_lt_trans h1 (hy.1 z hz)
    · refine List.pairwise_cons.mpr ⟨?_, ih hy.2⟩
      intro z hz
      rcases mem_set_insert hz with rfl | hz
      · exact h2
      · exact hy.1 z hz
    · exact hl

theorem length_set_insert_le (x : def_triad) (l : List def_triad) :
    (set_insert x l).length ≤ l.length + 1 := by
  induction l with
  | nil => simp [set_insert]
  | cons y ys ih =>
    unfold set_insert
    split_ifs
    · simp
    · simp only [List.length_cons]; omega
    · simp

theorem read_triads_pairwise (lines : List (ℚ × ℚ × ℚ)) :
    ∀ acc : List def_triad, acc.Pairwise (fun a b => operator_lt a b = true) →
      (read_triads lines acc).Pairwise (fun a b => operator_lt a b = true) := by
  induction lines with
  | nil => intro acc h; simpa [read_triads] using h
  | cons s rest ih =>
    intro acc h
    obtain ⟨u, v, t⟩ := s
    simp only [read_triads]
    exact ih _ (set_insert_pairwise _ h)

theorem length_read_triads_le (lines : List (ℚ × ℚ × ℚ)) :
    ∀ acc : List def_triad, (read_triads lines acc).length ≤ acc.length + lines.length := by
  induction lines with
  | nil => intro acc; simp [read_triads]
  | cons s rest ih =>
    intro acc
    obtain ⟨u, v, t⟩ := s
    simp only [read_triads, List.length_cons]
    have h1 := ih (set_insert (quantize u v t) acc)
    have h2 := length_set_insert_le (quantize u v t) acc
    omega

/-- What a successful construction is: the assertions passed, the file was read, and the
members are the values computed from its lines. -/
theorem construct_ok {path_file : Option (List (ℚ × ℚ × ℚ))} {num_neighbors : Nat}
    {self : Path_Initializer}
    (h : Path_Initializer.construct path_file num_neighbors = Except.ok self) :
    0 < num_neighbors ∧ ∃ lines, path_file = some lines ∧ 0 < (read_triads lines []).length ∧
      self = { num_triads_ := (read_triads lines []).length
               num_neighbors_ := num_neighbors
               triads_ := read_triads lines []
               point_cloud_ := make_point_cloud (read_triads lines [])
               neighbors_ := make_neighbors (read_triads lines [])
                 (make_point_cloud (read_triads lines [])) (read_triads lines []).length
                 num_neighbors } := by
  unfold Path_Initializer.construct at h
  split_ifs at h with hk
  cases path_file with
  | none => simp at h
  | some lines =>
    simp only at h
    split_ifs at h with hn
    refine ⟨by omega, lines, rfl, by omega, ?_⟩
    injection h with h
    exact h.symm

theorem construct_of_lines (lines : List (ℚ × ℚ × ℚ)) (num_neighbors : Nat)
    (hk : 0 < num_neighbors) (hn : 0 < (read_triads lines []).length) :
    Path_Initializer.construct (some lines) num_neighbors = Except.ok
      { num_triads_ := (read_triads lines []).length
        num_neighbors_ := num_neighbors
        triads_ := read_triads lines []
        point_cloud_ := make_point_cloud (read_triads lines [])
        neighbors_ := make_neighbors (read_triads lines [])
          (make_point_cloud (read_triads lines [])) (read_triads lines []).length
          num_neighbors } := by
  unfold Path_Initializer.construct
  rw [if_neg (fun h => h hk)]
  simp only
  rw [if_neg (fun h => h hn)]

theorem quantize_int (a b c : ℤ) : quantize a b c = def_triad.mk a b c := by
  have h2 : ∀ n : ℤ, (n : ℚ) * 2 + 0.5 = ((n * 2 : ℤ) : ℚ) + 0.5 := fun n => by
    push_cast; ring
  have h100 : ∀ n : ℤ, (n : ℚ) * 100 + 0.5 = ((n * 100 : ℤ) : ℚ) + 0.5 := fun n => by
    push_cast; ring
  simp only [quantize, h2, h100, floor_int_add_half]
  push_cast
  simp

theorem quantize_scenario_first : quantize 10.05 20.05 0.001 = def_triad.mk 10 20 0 := by
  have h1 : ⌊(10.05 : ℚ) * 2 + 0.5⌋ = 20 := by norm_num [Int.floor_eq_iff]
  have h2 : ⌊(20.05 : ℚ) * 2 + 0.5⌋ = 40 := by norm_num [Int.floor_eq_iff]
  have h3 : ⌊(0.001 : ℚ) * 100 + 0.5⌋ = 0 := by norm_num [Int.floor_eq_iff]
  simp only [quantize, h1, h2, h3]
  norm_num

theorem quantize_scenario_second : quantize 10.09 20.01 0.004 = def_triad.mk 10 20 0 := by
  have h1 : ⌊(10.09 : ℚ) * 2 + 0.5⌋ = 20 := by norm_num [Int.floor_eq_iff]
  have h2 : ⌊(20.01 : ℚ) * 2 + 0.5⌋ = 40 := by norm_num [Int.floor_eq_iff]
  have h3 : ⌊(0.004 : ℚ) * 100 + 0.5⌋ = 0 := by norm_num [Int.floor_eq_iff]
  simp only [quantize, h1, h2, h3]
  norm_num

theorem read_triads_scenario :
    read_triads [(10.05, 20.05, 0.001), (10.09, 20.01, 0.004)] [] = [def_triad.mk 10 20 0] := by
  simp [read_triads, quantize_scenario_first, quantize_scenario_second, set_insert, operator_lt]

theorem make_point_cloud_get (triads_ : List def_triad) (i : Nat) (it : def_triad)
    (h : triads_[i]? = some it) :
    (make_point_cloud triads_)[i]? = some (Point.mk it.u_ it.v_ it.t_) := by
  simp [make_point_cloud, h]

/-- C5: after a successful construction no two catalog entries are equal (neither as values
nor under `operator==`), the entries are strictly increasing in the (u, then v, then t) order,
`num_triads_` is their number, and the point cloud entry at index `i` holds the coordinates of
the `i`-th catalog triad. The two lines `10.05 20.05 0.001` and `10.09 20.01 0.004` both
quantize to `(10, 20, 0)` and yield the single catalog entry `(10, 20, 0)`. -/
theorem catalog_invariant (path_file : Option (List (ℚ × ℚ × ℚ))) (num_neighbors : Nat)
    (self : Path_Initializer)
    (h : Path_Initializer.construct path_file num_neighbors = Except.ok self) :
    self.triads_.Nodup
    ∧ self.triads_.Pairwise (fun a b => operator_eq a b = false)
    ∧ self.triads_.Pairwise lex_lt
    ∧ self.num_triads_ = self.triads_.length
    ∧ self.point_cloud_.length = self.num_triads_
    ∧ (∀ (i : Nat) (it : def_triad), self.triads_[i]? = some it →
        self.point_cloud_[i]? = some (Point.mk it.u_ it.v_ it.t_))
    ∧ (quantize 10.05 20.05 0.001 = def_triad.mk 10 20 0
        ∧ quantize 10.09 20.01 0.004 = def_triad.mk 10 20 0
        ∧ read_triads [(10.05, 20.05, 0.001), (10.09, 20.01, 0.004)] []
            = [def_triad.mk 10 20 0]) := by
  obtain ⟨_, lines, _, _, rfl⟩ := construct_ok h
  have hp := read_triads_pairwise lines [] List.Pairwise.nil
  have hlex : (read_triads lines []).Pairwise lex_lt := hp.imp operator_lt_lex
  have hne : (read_triads lines []).Pairwise (fun a b => a ≠ b) := hlex.imp lex_lt_ne
  refine ⟨hne, ?_, hlex, rfl, ?_, ?_,
    quantize_scenario_first, quantize_scenario_second, read_triads_scenario⟩
  · refine hne.imp ?_
    intro a b hab
    cases hc : operator_eq a b
    · rfl
    · exact absurd ((operator_eq_iff a b).mp hc) hab
  · simp [make_point_cloud]
  · intro i it hi
    exact make_point_cloud_get _ i it hi

/-- The initializer built from the two lines of the deduplication scenario with one
neighbor. -/
theorem construct_scenario :
    Path_Initializer.construct (some [(10.05, 20.05, 0.001), (10.09, 20.01, 0.004)]) 1
      = Except.ok
        { num_triads_ := 1, num_neighbors_ := 1, triads_ := [def_triad.mk 10 20 0],
          point_cloud_ := [Point.mk 10 20 0], neighbors_ := [0] } := by
  rw [construct_of_lines _ 1 (by decide) (by rw [read_triads_scenario]; decide),
    read_triads_scenario]
  norm_num [make_point_cloud, make_neighbors, neighbor_loop, knnSearch,
    knn_result, overwrite_front, fill_row, dist_sqr, List.enum, List.enumFrom,
    List.range, List.range.loop]

/-- Witness for C5: the scenario of the claim, constructed with one neighbor. -/
theorem catalog_invariant_witness :
    Path_Initializer.construct (some [(10.05, 20.05, 0.001), (10.09, 20.01, 0.004)]) 1
      = Except.ok
        { num_triads_ := 1, num_neighbors_ := 1, triads_ := [def_triad.mk 10 20 0],
          point_cloud_ := [Point.mk 10 20 0], neighbors_ := [0] }
    ∧ [def_triad.mk 10 20 0].Nodup
    ∧ [def_triad.mk 10 20 0].Pairwise lex_lt :=
  ⟨construct_scenario,
   (catalog_invariant _ 1 _ construct_scenario).1,
   (catalog_invariant _ 1 _ construct_scenario).2.2.1⟩

/-- C6: when construction succeeds the path file was opened and the catalog size
`num_triads_` satisfies `0 < num_triads_ ≤ number of input lines`. -/
theorem catalog_size_bound (path_file : Option (List (ℚ × ℚ × ℚ))) (num_neighbors : Nat)
    (self : Path_Initializer)
    (h : Path_Initializer.construct path_file num_neighbors = Except.ok self) :
    ∃ lines, path_file = some lines ∧ 0 < self.num_triads_ ∧ self.num_triads_ ≤ lines.length := by
  obtain ⟨_, lines, hpf, hpos, rfl⟩ := construct_ok h
  refine ⟨lines, hpf, hpos, ?_⟩
  simpa using length_read_triads_le lines []

/-! ## The k-nearest query -/

theorem dist_sqr_nonneg (q p : Point) : 0 ≤ dist_sqr q p := by
  unfold dist_sqr
  positivity

theorem dist_sqr_self (q : Point) : dist_sqr q q = 0 := by
  simp [dist_sqr]

theorem dist_sqr_eq_zero {q p : Point} (h : dist_sqr q p = 0) : p = q := by
  unfold dist_sqr at h
  have hx : (q.x - p.x) ^ 2 = 0 := by nlinarith [sq_nonneg (q.x - p.x), sq_nonneg (q.y - p.y), sq_nonneg (q.z - p.z)]
  have hy : (q.y - p.y) ^ 2 = 0 := by nlinarith [sq_nonneg (q.x - p.x), sq_nonneg (q.y - p.y), sq_nonneg (q.z - p.z)]
  have hz : (q.z - p.z) ^ 2 = 0 := by nlinarith [sq_nonneg (q.x - p.x), sq_nonneg (q.y - p.y), sq_nonneg (q.z - p.z)]
  have ex : p.x = q.x := by have := pow_eq_zero_iff (two_ne_zero) |>.mp hx; linarith
  have ey : p.y = q.y := by have := pow_eq_zero_iff (two_ne_zero) |>.mp hy; linarith
  have ez : p.z = q.z := by have := pow_eq_zero_iff (two_ne_zero) |>.mp hz; linarith
  cases p; cases q
  simp_all

/-- The candidates of the exact search: every id with its squared distance to the query. -/
theorem mem_candidates {pts : List Point} {q : Point} {c : Nat × ℚ} :
    c ∈ pts.enum.map (fun ip => (ip.1, dist_sqr q ip.2)) ↔
      ∃ p, pts[c.1]? = some p ∧ c.2 = dist_sqr q p := by
  constructor
  · intro h
    obtain ⟨⟨j, p⟩, hm, rfl⟩ := List.mem_map.mp h
    exact ⟨p, List.mk_mem_enum_iff_getElem?.mp hm, rfl⟩
  · rintro ⟨p, hp, hd⟩
    refine List.mem_map.mpr ⟨(c.1, p), List.mk_mem_enum_iff_getElem?.mpr hp, ?_⟩
    cases c
    simp_all

/-- A query at the coordinates of point `i` of a duplicate-free cloud has `i` as its first
result. -/
theorem knn_result_head {pts : List Point} (hnd : pts.Nodup) {i : Nat} {q : Point}
    (hi : pts[i]? = some q) {k : Nat} (hk : 0 < k) :
    ∃ tl, knn_result pts q k = (i, 0) :: tl := by
  unfold knn_result
  set L := pts.enum.map (fun ip => (ip.1, dist_sqr q ip.2)) with hL
  have hsorted := List.sorted_insertionSort (fun a b : Nat × ℚ => a.2 ≤ b.2) L
  have hperm := List.perm_insertionSort (fun a b : Nat × ℚ => a.2 ≤ b.2) L
  have hmem : ((i, 0) : Nat × ℚ) ∈ L :=
    mem_candidates.mpr ⟨q, hi, (dist_sqr_self q).symm⟩
  have hmemS := hperm.mem_iff.mpr hmem
  cases hS : List.insertionSort (fun a b : Nat × ℚ => a.2 ≤ b.2) L with
  | nil => rw [hS] at hmemS; cases hmemS
  | cons c tl =>
    rw [hS] at hsorted hmemS hperm
    have hc_le : c.2 ≤ 0 := by
      rcases List.mem_cons.mp hmemS with h | h
      · rw [← h]
      · exact List.rel_of_sorted_cons hsorted _ h
    have hcL : c ∈ L := hperm.mem_iff.mp (List.mem_cons_self _ _)
    obtain ⟨p, hp, hd⟩ := mem_candidates.mp hcL
    have hd0 : dist_sqr q p = 0 := le_antisymm (hd ▸ hc_le) (dist_sqr_nonneg q p)
    have hpq : p = q := dist_sqr_eq_zero hd0
    have hlt : i < pts.length := by
      rcases Nat.lt_or_ge i pts.length with h | h
      · exact h
      · rw [List.getElem?_eq_none h] at hi; cases hi
    have hidx : i = c.1 := List.getElem?_inj hlt hnd (by rw [hi, hp, hpq])
    have hc : c = (i, 0) := by
      cases c
      simp_all
    obtain ⟨k, rfl⟩ := Nat.exists_eq_succ_of_ne_zero (Nat.pos_iff_ne_zero.mp hk)
    exact ⟨tl.take k, by rw [hc, List.take_succ_cons]⟩

theorem length_overwrite_front {α : Type} (found out : List α) :
    (overwrite_front found out).length = out.length := by
  simp only [overwrite_front, List.length_take, List.length_append, List.length_drop]
  omega

theorem overwrite_front_head {α : Type} (a : α) (tl out : List α) (h : 0 < out.length) :
    (overwrite_front (a :: tl) out)[0]? = some a := by
  obtain ⟨n, hn⟩ := Nat.exists_eq_succ_of_ne_zero (Nat.pos_iff_ne_zero.mp h)
  simp [overwrite_front, hn]

theorem length_knnSearch_indices (pts : List Point) (q : Point) (k : Nat)
    (out_indices : List Nat) (out_distances_sq : List ℚ) :
    (knnSearch pts q k out_indices out_distances_sq).1.length = out_indices.length := by
  simp [knnSearch, length_overwrite_front]

theorem knnSearch_head {pts : List Point} (hnd : pts.Nodup) {i : Nat} {q : Point}
    (hi : pts[i]? = some q) {k : Nat} (hk : 0 < k)
    (out_indices : List Nat) (out_distances_sq : List ℚ) (hout : 0 < out_indices.length) :
    (knnSearch pts q k out_indices out_distances_sq).1[0]? = some i := by
  obtain ⟨tl, htl⟩ := knn_result_head hnd hi hk
  simp only [knnSearch, htl, List.map_cons]
  exact overwrite_front_head _ _ _ hout

/-! ## The neighbor table -/

theorem foldl_set_length (ret : List Nat) (base : Nat) (n : Nat) (nb : List Nat) :
    ((List.range n).foldl (fun nb i => nb.set (base + i) (ret.getD i 0)) nb).length
      = nb.length := by
  induction n with
  | zero => rfl
  | succ n ih =>
    rw [List.range_succ, List.foldl_append]
    simp only [List.foldl_cons, List.foldl_nil, List.length_set]
    exact ih

theorem foldl_set_get (ret : List Nat) (base : Nat) (n : Nat) (nb : List Nat) (p : Nat) :
    ((List.range n).foldl (fun nb i => nb.set (base + i) (ret.getD i 0)) nb)[p]?
      = if base ≤ p ∧ p < base + n then (nb[p]?).map (fun _ => ret.getD (p - base) 0)
        else nb[p]? := by
  induction n with
  | zero =>
    have h : ¬ (base ≤ p ∧ p < base + 0) := by omega
    rw [if_neg h]
    rfl
  | succ n ih =>
    rw [List.range_succ, List.foldl_append]
    simp only [List.foldl_cons, List.foldl_nil]
    rw [List.getElem?_set, ih, foldl_set_length]
    by_cases hp : base + n = p
    · subst hp
      have h1 : ¬ (base ≤ base + n ∧ base + n < base + n) := by omega
      have h2 : base ≤ base + n ∧ base + n < base + (n + 1) := by omega
      rw [if_pos rfl, if_pos h2]
      by_cases hlen : base + n < nb.length
      · simp [hlen, List.getElem?_eq_getElem hlen]
      · simp [hlen, List.getElem?_eq_none (Nat.le_of_not_lt hlen)]
    · rw [if_neg hp]
      by_cases h1 : base ≤ p ∧ p < base + n
      · have h2 : base ≤ p ∧ p < base + (n + 1) := by omega
        rw [if_pos h1, if_pos h2]
      · have h2 : ¬ (base ≤ p ∧ p < base + (n + 1)) := by omega
        rw [if_neg h1, if_neg h2]

theorem length_fill_row (nb : List Nat) (id k : Nat) (ret : List Nat) :
    (fill_row nb id k ret).length = nb.length :=
  foldl_set_length ret (id * k) k nb

theorem fill_row_get (nb : List Nat) (id k : Nat) (ret : List Nat) (p : Nat) :
    (fill_row nb id k ret)[p]?
      = if id * k ≤ p ∧ p < id * k + k then (nb[p]?).map (fun _ => ret.getD (p - id * k) 0)
        else nb[p]? :=
  foldl_set_get ret (id * k) k nb p

theorem length_neighbor_loop (pts : List Point) (k : Nat) (rest : List def_triad) :
    ∀ (id : Nat) (ret : List Nat) (dist : List ℚ) (nb : List Nat),
      (neighbor_loop pts k rest id ret dist nb).length = nb.length := by
  induction rest with
  | nil => intros; rfl
  | cons it rest ih =>
    intro id ret dist nb
    simp only [neighbor_loop]
    rw [ih, length_fill_row]

/-- Rows already written are not changed by the later iterations. -/
theorem neighbor_loop_earlier (pts : List Point) (k : Nat) (rest : List def_triad) :
    ∀ (id : Nat) (ret : List Nat) (dist : List ℚ) (nb : List Nat) (p : Nat), p < id * k →
      (neighbor_loop pts k rest id ret dist nb)[p]? = nb[p]? := by
  induction rest with
  | nil => intros; rfl
  | cons it rest ih =>
    intro id ret dist nb p hp
    simp only [neighbor_loop]
    rw [ih _ _ _ _ p (by rw [Nat.succ_mul]; omega), fill_row_get]
    have h : ¬ (id * k ≤ p ∧ p < id * k + k) := by omega
    rw [if_neg h]

/-- The entry `j` of the row of the `m`-th remaining triad is entry `j` of `ret_index` after
some k-nearest query issued with that triad's coordinates. -/
theorem neighbor_loop_row (pts : List Point) (k : Nat) (rest : List def_triad) :
    ∀ (id : Nat) (ret : List Nat) (dist : List ℚ) (nb : List Nat) (m j : Nat) (it : def_triad),
      rest[m]? = some it → j < k → (id + m) * k + j < nb.length → ret.length = k →
      ∃ (ret0 : List Nat) (dist0 : List ℚ), ret0.length = k ∧
        (neighbor_loop pts k rest id ret dist nb)[(id + m) * k + j]?
          = some ((knnSearch pts (Point.mk it.u_ it.v_ it.t_) k ret0 dist0).1.getD j 0) := by
  induction rest with
  | nil => intro id ret dist nb m j it h; simp at h
  | cons it0 rest ih =>
    intro id ret dist nb m j it hm hj hlen hret
    simp only [neighbor_loop]
    cases m with
    | zero =>
      simp only [List.getElem?_cons_zero, Option.some.injEq] at hm
      subst hm
      refine ⟨ret, dist, hret, ?_⟩
      simp only [Nat.add_zero] at hlen ⊢
      rw [neighbor_loop_earlier _ _ _ _ _ _ _ _ (by rw [Nat.succ_mul]; omega), fill_row_get]
      have h : id * k ≤ id * k + j ∧ id * k + j < id * k + k := by omega
      rw [if_pos h, List.getElem?_eq_getElem hlen]
      simp
    | succ m =>
      simp only [List.getElem?_cons_succ] at hm
      have e : id + (m + 1) = id + 1 + m := by omega
      rw [e] at hlen ⊢
      exact ih (id + 1) _ _ _ m j it hm hj (by rw [length_fill_row]; exact hlen)
        (by rw [length_knnSearch_indices]; exact hret)

theorem make_point_cloud_nodup {triads_ : List def_triad} (h : triads_.Nodup) :
    (make_point_cloud triads_).Nodup := by
  unfold make_point_cloud
  refine List.Nodup.map ?_ h
  intro a b hab
  cases a; cases b
  simp_all

/-- C8: after a successful construction with `k = num_neighbors` the table `neighbors_` has
exactly `num_triads_ * k` entries, `k` per catalog id, and the first entry of the row of every
catalog id `i`, `neighbors_[i*k + 0]`, is `i` itself (the bound `k ≤ num_triads_` is not needed
for these facts; `1 ≤ k` follows from the success of the construction). -/
theorem neighbor_table_shape (path_file : Option (List (ℚ × ℚ × ℚ))) (num_neighbors : Nat)
    (self : Path_Initializer)
    (h : Path_Initializer.construct path_file num_neighbors = Except.ok self) :
    self.num_neighbors_ = num_neighbors
    ∧ 1 ≤ self.num_neighbors_
    ∧ self.neighbors_.length = self.num_triads_ * self.num_neighbors_
    ∧ (∀ i, i < self.num_triads_ → self.neighbors_[i * self.num_neighbors_ + 0]? = some i) := by
  obtain ⟨hk, lines, _, _, rfl⟩ := construct_ok h
  have hp := read_triads_pairwise lines [] List.Pairwise.nil
  have hnd : (read_triads lines []).Nodup := (hp.imp operator_lt_lex).imp lex_lt_ne
  refine ⟨rfl, hk, ?_, ?_⟩
  · simp [make_neighbors, length_neighbor_loop]
  · intro i hi
    simp only at hi ⊢
    have hit : (read_triads lines [])[i]? = some ((read_triads lines [])[i]) :=
      List.getElem?_eq_getElem hi
    have hlen : (0 + i) * num_neighbors + 0
        < (List.replicate ((read_triads lines []).length * num_neighbors) 0).length := by
      rw [List.length_replicate]
      calc (0 + i) * num_neighbors + 0 = i * num_neighbors := by ring
        _ < i * num_neighbors + num_neighbors := by omega
        _ = (i + 1) * num_neighbors := by ring
        _ ≤ (read_triads lines []).length * num_neighbors := Nat.mul_le_mul_right _ hi
    obtain ⟨ret0, dist0, hret0, hrow⟩ :=
      neighbor_loop_row (make_point_cloud (read_triads lines [])) num_neighbors
        (read_triads lines []) 0 (List.replicate num_neighbors 0)
        (List.replicate num_neighbors 0)
        (List.replicate ((read_triads lines []).length * num_neighbors) 0) i 0 _ hit hk hlen
        (List.length_replicate _ _)
    have hhead := knnSearch_head (make_point_cloud_nodup hnd)
      (make_point_cloud_get _ i _ hit) hk ret0 dist0 (by omega)
    simp only [Nat.zero_add] at hrow
    unfold make_neighbors
    rw [hrow, List.getD_eq_getElem?_getD, hhead]
    rfl

theorem construct_two_triads :
    Path_Initializer.construct (some [(0, 0, 0), (1, 0, 0)]) 1 = Except.ok two_triads := by
  have q0 : quantize 0 0 0 = def_triad.mk 0 0 0 := by simpa using quantize_int 0 0 0
  have q1 : quantize 1 0 0 = def_triad.mk 1 0 0 := by simpa using quantize_int 1 0 0
  have hr : read_triads [(0, 0, 0), (1, 0, 0)] [] = [def_triad.mk 0 0 0, def_triad.mk 1 0 0] := by
    norm_num [read_triads, q0, q1, set_insert, operator_lt]
  rw [construct_of_lines _ 1 (by decide) (by rw [hr]; decide), hr]
  norm_num [two_triads, make_point_cloud, make_neighbors, neighbor_loop, knnSearch,
    knn_result, overwrite_front, fill_row, dist_sqr, List.enum, List.enumFrom,
    List.range, List.range.loop, List.replicate]

/-- Witness for C8: the initializer built from the lines `0 0 0` and `1 0 0` with `k = 1`. -/
theorem neighbor_table_shape_witness :
    Path_Initializer.construct (some [(0, 0, 0), (1, 0, 0)]) 1 = Except.ok two_triads
    ∧ two_triads.neighbors_.length = two_triads.num_triads_ * two_triads.num_neighbors_
    ∧ (∀ i, i < two_triads.num_triads_ →
        two_triads.neighbors_[i * two_triads.num_neighbors_ + 0]? = some i) :=
  ⟨construct_two_triads,
   (neighbor_table_shape _ 1 two_triads construct_two_triads).2.2.1,
   (neighbor_table_shape _ 1 two_triads construct_two_triads).2.2.2⟩

theorem construct_three_lines :
    Path_Initializer.construct (some [(0, 0, 0), (0, 0, 1), (1, 0, 0)]) 1
      = Except.ok two_triads := by
  have q0 : quantize 0 0 0 = def_triad.mk 0 0 0 := by simpa using quantize_int 0 0 0
  have q1 : quantize 0 0 1 = def_triad.mk 0 0 1 := by simpa using quantize_int 0 0 1
  have q2 : quantize 1 0 0 = def_triad.mk 1 0 0 := by simpa using quantize_int 1 0 0
  have hr : read_triads [(0, 0, 0), (0, 0, 1), (1, 0, 0)] []
      = [def_triad.mk 0 0 0, def_triad.mk 1 0 0] := by
    norm_num [read_triads, q0, q1, q2, set_insert, operator_lt]
  rw [construct_of_lines _ 1 (by decide) (by rw [hr]; decide), hr]
  norm_num [two_triads, make_point_cloud, make_neighbors, neighbor_loop, knnSearch,
    knn_result, overwrite_front, fill_row, dist_sqr, List.enum, List.enumFrom,
    List.range, List.range.loop, List.replicate]

/-- Witness for C6: three input lines, two of which share `(u, v)`, give a catalog of size 2. -/
theorem catalog_size_bound_witness :
    Path_Initializer.construct (some [(0, 0, 0), (0, 0, 1), (1, 0, 0)]) 1
      = Except.ok two_triads
    ∧ ∃ lines, some [((0 : ℚ), (0 : ℚ), (0 : ℚ)), (0, 0, 1), (1, 0, 0)] = some lines
        ∧ 0 < two_triads.num_triads_ ∧ two_triads.num_triads_ ≤ lines.length :=
  ⟨construct_three_lines, catalog_size_bound _ 1 two_triads construct_three_lines⟩

/-! ## closest_triad -/

theorem closest_triad_caller_id (self : Path_Initializer) (u v t : ℚ) (id : Nat) (d : ℚ)
    (hk : 0 < self.num_neighbors_) :
    ∃ d0, self.closest_triad u v t id d = some (id, d0) := by
  unfold Path_Initializer.closest_triad
  simp only
  have h1 : 0 < (knnSearch self.point_cloud_ (Point.mk u v t) 1
      (List.replicate self.num_neighbors_ 0) (List.replicate self.num_neighbors_ 0)).1.length := by
    simp [knnSearch, length_overwrite_front, hk]
  have h2 : 0 < (knnSearch self.point_cloud_ (Point.mk u v t) 1
      (List.replicate self.num_neighbors_ 0) (List.replicate self.num_neighbors_ 0)).2.length := by
    simp [knnSearch, length_overwrite_front, hk]
  rw [List.getElem?_eq_getElem h1, List.getElem?_eq_getElem h2]
  exact ⟨_, rfl⟩

theorem two_triads_knn :
    knnSearch two_triads.point_cloud_ (Point.mk 1 0 0) 1
      (List.replicate two_triads.num_neighbors_ 0) (List.replicate two_triads.num_neighbors_ 0)
      = ([1], [0]) := by
  norm_num [two_triads, knnSearch, knn_result, overwrite_front, dist_sqr, List.enum,
    List.enumFrom, List.replicate]

theorem two_triads_closest (id : Nat) (d : ℚ) :
    two_triads.closest_triad 1 0 0 id d = some (id, 0) := by
  simp only [Path_Initializer.closest_triad, two_triads_knn]
  rfl

theorem two_triads_nearest : two_triads.nearest_id 1 0 0 = some 1 := by
  simp only [Path_Initializer.nearest_id, two_triads_knn]
  rfl

/-- C7: on the initializer built from the lines `0 0 0` and `1 0 0`, a query at the
coordinates `(1, 0, 0)` of catalog id 1 finds id 1 in `ret_index[0]`, yet the caller who passed
`id = 0` still holds `id = 0` after the call, and in general holds whatever it passed; only
`distance_sqr` (here 0) reaches the caller. -/
theorem closest_triad_id_not_returned :
    Path_Initializer.construct (some [(0, 0, 0), (1, 0, 0)]) 1 = Except.ok two_triads
    ∧ two_triads.point_cloud_[1]? = some (Point.mk 1 0 0)
    ∧ two_triads.nearest_id 1 0 0 = some 1
    ∧ two_triads.closest_triad 1 0 0 0 5 = some (0, 0)
    ∧ (∀ (id : Nat) (d : ℚ), two_triads.closest_triad 1 0 0 id d = some (id, 0)) :=
  ⟨construct_two_triads, rfl, two_triads_nearest, two_triads_closest 0 5, two_triads_closest⟩

/-! ## The seeded search -/

theorem seeded_loop_returns (self : Path_Initializer) (F : Field_Names)
    (neighbor : Nat → Nat → Option Nat) (gamma : (Nat → ℚ) → ℚ) (id : Nat)
    (rest : List Nat)
    (hvalid : ∀ neigh ∈ rest, ∃ j, neighbor id neigh = some j ∧ j < self.point_cloud_.length) :
    ∀ st : Search_State, ∃ st', seeded_loop self F neighbor gamma id rest st = some st' := by
  induction rest with
  | nil => intro st; exact ⟨st, rfl⟩
  | cons neigh rest ih =>
    intro st
    obtain ⟨j, hj, hlt⟩ := hvalid neigh (List.mem_cons_self _ _)
    simp only [seeded_loop, hj, List.getElem?_eq_getElem hlt]
    exact ih (fun n hn => hvalid n (List.mem_cons_of_mem _ hn)) _

theorem size_t_of_int_neg_one : size_t_of_int (-1) = 2 ^ 64 - 1 := by
  decide

theorem two_triads_neighbor_neg_one : two_triads.neighbor (size_t_of_int (-1)) 0 = none := by
  rw [size_t_of_int_neg_one]
  decide

/-- C10: on the initializer built from the lines `0 0 0` and `1 0 0` with `k = 1` and the seed
`(1, 0, 0)`, the nearest catalog id is `base = 1` and its row of the neighbor table is `[1]`.
The code asks the accessor for the row of `size_t(-1)`, which the table does not have, so the
call has no result with the table's own accessor, whatever the oracle and the buffer. With an
accessor that answers the row of `size_t(-1)` with id 0 and every other row from the table,
and the oracle `d ↦ d[0] + 1`, the code returns 1, the score of triad 0, whereas the seed and
the row of `base` both score 2. -/
theorem seeded_guess_ignores_base :
    Path_Initializer.construct (some [(0, 0, 0), (1, 0, 0)]) 1 = Except.ok two_triads
    ∧ two_triads.nearest_id 1 0 0 = some 1
    ∧ two_triads.neighbor 1 0 = some 1
    ∧ two_triads.neighbor (size_t_of_int (-1)) 0 = none
    ∧ (∀ (gamma : (Nat → ℚ) → ℚ) (deformation : Nat → ℚ),
        two_triads.initial_guess_seeded fields_012 two_triads.neighbor gamma deformation 1 0 0
          = none)
    ∧ (two_triads.initial_guess_seeded fields_012
          (fun id n => if id = size_t_of_int (-1) then some 0 else two_triads.neighbor id n)
          (fun d => d 0 + 1) (fun _ => 0) 1 0 0).map Prod.fst = some 1
    ∧ (fun d : Nat → ℚ => d 0 + 1) (write_uvt fields_012 (fun _ => 0) 1 0 0) = 2 := by
  refine ⟨construct_two_triads, two_triads_nearest, by decide, two_triads_neighbor_neg_one,
    ?_, ?_, ?_⟩
  · intro gamma deformation
    simp only [Path_Initializer.initial_guess_seeded, two_triads_closest]
    have hr : List.range two_triads.num_neighbors_ = [0] := by decide
    rw [hr]
    simp only [seeded_loop, two_triads_neighbor_neg_one]
  · simp only [Path_Initializer.initial_guess_seeded, two_triads_closest]
    have hr : List.range two_triads.num_neighbors_ = [0] := by decide
    rw [hr]
    have hp : two_triads.point_cloud_[0]? = some (Point.mk 0 0 0) := rfl
    simp only [seeded_loop, if_true, hp]
    norm_num [score_candidate, write_uvt, fields_012, Function.update]
  · norm_num [write_uvt, fields_012, Function.update]

/-! ## The deformation buffer -/

theorem write_uvt_apply (F : Field_Names) (d : Nat → ℚ) (a b c : ℚ) (n : Nat) :
    write_uvt F d a b c n
      = if n = F.ROTATION_Z then c else if n = F.DISPLACEMENT_Y then b
        else if n = F.DISPLACEMENT_X then a else d n := by
  unfold write_uvt
  simp only [Function.update_apply]

theorem write_uvt_off (F : Field_Names) (d : Nat → ℚ) (a b c : ℚ) (n : Nat)
    (hx : n ≠ F.DISPLACEMENT_X) (hy : n ≠ F.DISPLACEMENT_Y) (hz : n ≠ F.ROTATION_Z) :
    write_uvt F d a b c n = d n := by
  rw [write_uvt_apply, if_neg hz, if_neg hy, if_neg hx]

theorem write_uvt_entries (F : Field_Names) (d : Nat → ℚ) (a b c : ℚ)
    (hxy : F.DISPLACEMENT_X ≠ F.DISPLACEMENT_Y) (hxz : F.DISPLACEMENT_X ≠ F.ROTATION_Z)
    (hyz : F.DISPLACEMENT_Y ≠ F.ROTATION_Z) :
    write_uvt F d a b c F.DISPLACEMENT_X = a ∧ write_uvt F d a b c F.DISPLACEMENT_Y = b
      ∧ write_uvt F d a b c F.ROTATION_Z = c := by
  refine ⟨?_, ?_, ?_⟩
  · rw [write_uvt_apply, if_neg hxz, if_neg hxy, if_pos rfl]
  · rw [write_uvt_apply, if_neg hyz, if_pos rfl]
  · rw [write_uvt_apply, if_pos rfl]

/-- Writing the three entries makes the earlier values of these entries irrelevant. -/
theorem write_uvt_congr (F : Field_Names) (d d0 : Nat → ℚ) (a b c : ℚ)
    (h : ∀ n, n ≠ F.DISPLACEMENT_X → n ≠ F.DISPLACEMENT_Y → n ≠ F.ROTATION_Z → d n = d0 n) :
    write_uvt F d a b c = write_uvt F d0 a b c := by
  funext n
  rw [write_uvt_apply, write_uvt_apply]
  split_ifs with hz hy hx
  · rfl
  · rfl
  · rfl
  · exact h n hx hy hz

/-- Writing back the three entries read from a buffer reproduces that buffer. -/
theorem write_uvt_readback (F : Field_Names) (d buf : Nat → ℚ)
    (h : ∀ n, n ≠ F.DISPLACEMENT_X → n ≠ F.DISPLACEMENT_Y → n ≠ F.ROTATION_Z → d n = buf n) :
    write_uvt F d (buf F.DISPLACEMENT_X) (buf F.DISPLACEMENT_Y) (buf F.ROTATION_Z) = buf := by
  funext n
  rw [write_uvt_apply]
  split_ifs with hz hy hx
  · rw [hz]
  · rw [hy]
  · rw [hx]
  · exact h n hx hy hz

/-! ## The search loops as a scan of a candidate list -/

/-- The scan of a candidate list. Either no candidate scores strictly below the running best
and the best is unchanged, or the best is the first candidate attaining the least score,
which is strictly below the initial best. Entries of the buffer other than the three written
ones keep the values of `d0`. -/
theorem scan_spec (F : Field_Names) (gamma : (Nat → ℚ) → ℚ) (d0 : Nat → ℚ)
    (cands : List Point) :
    ∀ st : Search_State,
      (∀ n, n ≠ F.DISPLACEMENT_X → n ≠ F.DISPLACEMENT_Y → n ≠ F.ROTATION_Z →
        st.deformation n = d0 n) →
      (∀ n, n ≠ F.DISPLACEMENT_X → n ≠ F.DISPLACEMENT_Y → n ≠ F.ROTATION_Z →
        (cands.foldl (score_candidate F gamma) st).deformation n = d0 n)
      ∧ (((cands.foldl (score_candidate F gamma) st).best_gamma = st.best_gamma
          ∧ (cands.foldl (score_candidate F gamma) st).best_u = st.best_u
          ∧ (cands.foldl (score_candidate F gamma) st).best_v = st.best_v
          ∧ (cands.foldl (score_candidate F gamma) st).best_t = st.best_t
          ∧ ∀ q ∈ cands, st.best_gamma ≤ gamma (write_uvt F d0 q.x q.y q.z))
        ∨ (∃ pre p post, cands = pre ++ p :: post
          ∧ gamma (write_uvt F d0 p.x p.y p.z) < st.best_gamma
          ∧ (∀ q ∈ pre, gamma (write_uvt F d0 p.x p.y p.z) < gamma (write_uvt F d0 q.x q.y q.z))
          ∧ (∀ q ∈ post, gamma (write_uvt F d0 p.x p.y p.z) ≤ gamma (write_uvt F d0 q.x q.y q.z))
          ∧ (cands.foldl (score_candidate F gamma) st).best_gamma
              = gamma (write_uvt F d0 p.x p.y p.z)
          ∧ (cands.foldl (score_candidate F gamma) st).best_u
              = write_uvt F d0 p.x p.y p.z F.DISPLACEMENT_X
          ∧ (cands.foldl (score_candidate F gamma) st).best_v
              = write_uvt F d0 p.x p.y p.z F.DISPLACEMENT_Y
          ∧ (cands.foldl (score_candidate F gamma) st).best_t
              = write_uvt F d0 p.x p.y p.z F.ROTATION_Z)) := by
  induction cands with
  | nil =>
    intro st hst
    exact ⟨hst, Or.inl ⟨rfl, rfl, rfl, rfl, (fun q hq => by cases hq)⟩⟩
  | cons c cs ih =>
    intro st hst
    have hbuf : write_uvt F st.deformation c.x c.y c.z = write_uvt F d0 c.x c.y c.z :=
      write_uvt_congr F _ _ _ _ _ hst
    have hoff : ∀ n, n ≠ F.DISPLACEMENT_X → n ≠ F.DISPLACEMENT_Y → n ≠ F.ROTATION_Z →
        (score_candidate F gamma st c).deformation n = d0 n := by
      intro n hx hy hz
      have hd : (score_candidate F gamma st c).deformation
          = write_uvt F st.deformation c.x c.y c.z := by
        unfold score_candidate
        simp only
        split_ifs <;> rfl
      rw [hd, write_uvt_off F _ _ _ _ n hx hy hz]
      exact hst n hx hy hz
    obtain ⟨ih1, ih2⟩ := ih (score_candidate F gamma st c) hoff
    simp only [List.foldl_cons]
    refine ⟨ih1, ?_⟩
    by_cases hlt : gamma (write_uvt F d0 c.x c.y c.z) < st.best_gamma
    · have hsc : (score_candidate F gamma st c).best_gamma = gamma (write_uvt F d0 c.x c.y c.z)
          ∧ (score_candidate F gamma st c).best_u = write_uvt F d0 c.x c.y c.z F.DISPLACEMENT_X
          ∧ (score_candidate F gamma st c).best_v = write_uvt F d0 c.x c.y c.z F.DISPLACEMENT_Y
          ∧ (score_candidate F gamma st c).best_t = write_uvt F d0 c.x c.y c.z F.ROTATION_Z := by
        unfold score_candidate
        simp only [hbuf]
        rw [if_pos hlt]
        exact ⟨rfl, rfl, rfl, rfl⟩
      right
      rcases ih2 with ⟨e1, e2, e3, e4, hall⟩ | ⟨pre, p, post, hc, hp, hpre, hpost, e1, e2, e3, e4⟩
      · refine ⟨[], c, cs, rfl, hlt, (fun q hq => by cases hq), ?_,
          e1.trans hsc.1, e2.trans hsc.2.1, e3.trans hsc.2.2.1, e4.trans hsc.2.2.2⟩
        intro q hq
        rw [← hsc.1]
        exact hall q hq
      · rw [hsc.1] at hp
        refine ⟨c :: pre, p, post, by rw [hc]; rfl, lt_trans hp hlt, ?_, hpost, e1, e2, e3, e4⟩
        intro q hq
        rcases List.mem_cons.mp hq with rfl | hq
        · exact hp
        · exact hpre q hq
    · have hsc : (score_candidate F gamma st c).best_gamma = st.best_gamma
          ∧ (score_candidate F gamma st c).best_u = st.best_u
          ∧ (score_candidate F gamma st c).best_v = st.best_v
          ∧ (score_candidate F gamma st c).best_t = st.best_t := by
        unfold score_candidate
        simp only [hbuf]
        rw [if_neg hlt]
        exact ⟨rfl, rfl, rfl, rfl⟩
      rcases ih2 with ⟨e1, e2, e3, e4, hall⟩ | ⟨pre, p, post, hc, hp, hpre, hpost, e1, e2, e3, e4⟩
      · left
        refine ⟨e1.trans hsc.1, e2.trans hsc.2.1, e3.trans hsc.2.2.1, e4.trans hsc.2.2.2, ?_⟩
        intro q hq
        rcases List.mem_cons.mp hq with rfl | hq
        · exact not_lt.mp hlt
        · rw [← hsc.1]
          exact hall q hq
      · right
        rw [hsc.1] at hp
        refine ⟨c :: pre, p, post, by rw [hc]; rfl, hp, ?_, hpost, e1, e2, e3, e4⟩
        intro q hq
        rcases List.mem_cons.mp hq with rfl | hq
        · exact lt_of_lt_of_le hp (not_lt.mp hlt)
        · exact hpre q hq

theorem score_candidate_deformation (F : Field_Names) (gamma : (Nat → ℚ) → ℚ)
    (st : Search_State) (c : Point) :
    (score_candidate F gamma st c).deformation = write_uvt F st.deformation c.x c.y c.z := by
  unfold score_candidate
  simp only
  split_ifs <;> rfl

/-- The unseeded loop over the ids `s, s+1, ..., s+n-1` of the point cloud is the scan of the
corresponding points. -/
theorem unseeded_loop_range (self : Path_Initializer) (F : Field_Names)
    (gamma : (Nat → ℚ) → ℚ) (n : Nat) :
    ∀ (s : Nat) (st : Search_State), s + n ≤ self.point_cloud_.length →
      unseeded_loop self F gamma (List.range' s n) st
        = some (((self.point_cloud_.drop s).take n).foldl (score_candidate F gamma) st) := by
  induction n with
  | zero => intro s st _; rfl
  | succ n ih =>
    intro s st h
    have hs : s < self.point_cloud_.length := by omega
    rw [List.range'_succ, List.drop_eq_getElem_cons hs, List.take_succ_cons]
    simp only [unseeded_loop, List.getElem?_eq_getElem hs, List.foldl_cons]
    exact ih (s + 1) _ (by omega)

theorem unseeded_loop_all (self : Path_Initializer) (F : Field_Names)
    (gamma : (Nat → ℚ) → ℚ) (st : Search_State)
    (hN : self.num_triads_ = self.point_cloud_.length) :
    unseeded_loop self F gamma (List.range self.num_triads_) st
      = some (self.point_cloud_.foldl (score_candidate F gamma) st) := by
  rw [List.range_eq_range', unseeded_loop_range self F gamma _ 0 st (by omega), hN]
  simp

theorem unseeded_loop_off (self : Path_Initializer) (F : Field_Names)
    (gamma : (Nat → ℚ) → ℚ) (d0 : Nat → ℚ) (n : Nat)
    (hx : n ≠ F.DISPLACEMENT_X) (hy : n ≠ F.DISPLACEMENT_Y) (hz : n ≠ F.ROTATION_Z)
    (ids : List Nat) :
    ∀ st st' : Search_State, unseeded_loop self F gamma ids st = some st' →
      st.deformation n = d0 n → st'.deformation n = d0 n := by
  induction ids with
  | nil =>
    intro st st' h hst
    simp only [unseeded_loop, Option.some.injEq] at h
    rw [← h]; exact hst
  | cons i rest ih =>
    intro st st' h hst
    simp only [unseeded_loop] at h
    cases hp : self.point_cloud_[i]? with
    | none => rw [hp] at h; cases h
    | some p =>
      rw [hp] at h
      refine ih _ _ h ?_
      rw [score_candidate_deformation, write_uvt_off F _ _ _ _ n hx hy hz]
      exact hst

theorem seeded_loop_off (self : Path_Initializer) (F : Field_Names)
    (neighbor : Nat → Nat → Option Nat) (gamma : (Nat → ℚ) → ℚ) (id : Nat) (d0 : Nat → ℚ)
    (n : Nat) (hx : n ≠ F.DISPLACEMENT_X) (hy : n ≠ F.DISPLACEMENT_Y) (hz : n ≠ F.ROTATION_Z)
    (rest : List Nat) :
    ∀ st st' : Search_State, seeded_loop self F neighbor gamma id rest st = some st' →
      st.deformation n = d0 n → st'.deformation n = d0 n := by
  induction rest with
  | nil =>
    intro st st' h hst
    simp only [seeded_loop, Option.some.injEq] at h
    rw [← h]; exact hst
  | cons neigh rest ih =>
    intro st st' h hst
    simp only [seeded_loop] at h
    cases hn : neighbor id neigh with
    | none => rw [hn] at h; cases h
    | some neigh_id =>
      rw [hn] at h
      simp only at h
      cases hp : self.point_cloud_[neigh_id]? with
      | none => rw [hp] at h; cases h
      | some p =>
        rw [hp] at h
        refine ih _ _ h ?_
        rw [score_candidate_deformation, write_uvt_off F _ _ _ _ n hx hy hz]
        exact hst

/-- C11: on an initializer whose point cloud has `num_triads_` entries the unseeded
`initial_guess` returns, and the value returned is `min(100, min over the catalog of gamma)`:
it is at most 100 and at most the score of every catalog triad, and it is 100 or the score of
a catalog triad. When some catalog triad scores strictly below 100, the returned value is the
score of a catalog triad `p` of id `i`, every triad of lower id scores strictly more, and the
buffer after the call is the input buffer with `p` written (so that, the three positions
being distinct, its entries are `p.x`, `p.y`, `p.z`). The score of a triad is the oracle's
value on the input buffer with the triad written. -/
theorem unseeded_guess_exhaustive (self : Path_Initializer) (F : Field_Names)
    (gamma : (Nat → ℚ) → ℚ) (deformation : Nat → ℚ)
    (hN : self.num_triads_ = self.point_cloud_.length) :
    ∃ r, self.initial_guess F gamma deformation = some r
      ∧ r.1 ≤ 100
      ∧ (∀ p ∈ self.point_cloud_, r.1 ≤ gamma (write_uvt F deformation p.x p.y p.z))
      ∧ (r.1 = 100 ∨ ∃ p ∈ self.point_cloud_, r.1 = gamma (write_uvt F deformation p.x p.y p.z))
      ∧ ((∃ p ∈ self.point_cloud_, gamma (write_uvt F deformation p.x p.y p.z) < 100) →
          ∃ (i : Nat) (p : Point), self.point_cloud_[i]? = some p
            ∧ r.1 = gamma (write_uvt F deformation p.x p.y p.z)
            ∧ (∀ (j : Nat) (q : Point), j < i → self.point_cloud_[j]? = some q →
                r.1 < gamma (write_uvt F deformation q.x q.y q.z))
            ∧ r.2 = write_uvt F deformation p.x p.y p.z
            ∧ (F.DISPLACEMENT_X ≠ F.DISPLACEMENT_Y → F.DISPLACEMENT_X ≠ F.ROTATION_Z →
                F.DISPLACEMENT_Y ≠ F.ROTATION_Z →
                r.2 F.DISPLACEMENT_X = p.x ∧ r.2 F.DISPLACEMENT_Y = p.y
                  ∧ r.2 F.ROTATION_Z = p.z)) := by
  unfold Path_Initializer.initial_guess
  simp only [unseeded_loop_all self F gamma _ hN]
  refine ⟨_, rfl, ?_⟩
  obtain ⟨hoff, hcase⟩ := scan_spec F gamma deformation self.point_cloud_
    { deformation := deformation, best_u := 0, best_v := 0, best_t := 0, best_gamma := 100 }
    (fun _ _ _ _ => rfl)
  rcases hcase with ⟨e1, _, _, _, hall⟩ | ⟨pre, p, post, hc, hp, hpre, hpost, e1, e2, e3, e4⟩
  · simp only at e1 hall ⊢
    rw [e1]
    refine ⟨le_refl _, hall, Or.inl rfl, ?_⟩
    rintro ⟨p, hp, hlt⟩
    exact absurd hlt (not_lt.mpr (hall p hp))
  · simp only at hp ⊢
    rw [e1, e2, e3, e4]
    have hmem : ∀ q ∈ self.point_cloud_,
        gamma (write_uvt F deformation p.x p.y p.z)
          ≤ gamma (write_uvt F deformation q.x q.y q.z) := by
      intro q hq
      rw [hc] at hq
      rcases List.mem_append.mp hq with hq | hq
      · exact le_of_lt (hpre q hq)
      · rcases List.mem_cons.mp hq with rfl | hq
        · exact le_refl _
        · exact hpost q hq
    have hpm : p ∈ self.point_cloud_ := by rw [hc]; simp
    have hback : write_uvt F
        (List.foldl (score_candidate F gamma)
          { deformation := deformation, best_u := 0, best_v := 0, best_t := 0,
            best_gamma := 100 } self.point_cloud_).deformation
        (write_uvt F deformation p.x p.y p.z F.DISPLACEMENT_X)
        (write_uvt F deformation p.x p.y p.z F.DISPLACEMENT_Y)
        (write_uvt F deformation p.x p.y p.z F.ROTATION_Z)
        = write_uvt F deformation p.x p.y p.z := by
      apply write_uvt_readback
      intro n hx hy hz
      rw [hoff n hx hy hz, write_uvt_off F _ _ _ _ n hx hy hz]
    refine ⟨le_of_lt hp, hmem, Or.inr ⟨p, hpm, rfl⟩, fun _ => ⟨pre.length, p, ?_, rfl, ?_, hback, ?_⟩⟩
    · rw [hc, List.getElem?_append_right (le_refl _), Nat.sub_self]
      exact List.getElem?_cons_zero
    · intro j q hj hq
      rw [hc, List.getElem?_append_left hj] at hq
      exact hpre q (List.getElem?_mem hq)
    · intro hxy hxz hyz
      rw [hback]
      exact write_uvt_entries F deformation p.x p.y p.z hxy hxz hyz

theorem two_triads_unseeded_eval :
    (two_triads.initial_guess fields_012 (fun _ => 7) (fun _ => 0)).map
      (fun r => (r.1, r.2 0, r.2 1, r.2 2)) = some (7, 0, 0, 0) := by
  have hr : List.range two_triads.num_triads_ = [0, 1] := by decide
  have h0 : two_triads.point_cloud_[0]? = some (Point.mk 0 0 0) := rfl
  have h1 : two_triads.point_cloud_[1]? = some (Point.mk 1 0 0) := rfl
  simp only [Path_Initializer.initial_guess, hr, unseeded_loop, h0, h1]
  norm_num [score_candidate, write_uvt, fields_012, Function.update]

/-- Witness for C11: on the two-triad initializer with the constant oracle 7 both triads tie
at 7, below the sentinel 100; the call returns 7 and writes triad 0, `(0, 0, 0)`. -/
theorem unseeded_guess_exhaustive_witness :
    two_triads.num_triads_ = two_triads.point_cloud_.length
    ∧ (∃ r, two_triads.initial_guess fields_012 (fun _ => 7) (fun _ => 0) = some r
        ∧ r.1 ≤ 100)
    ∧ (two_triads.initial_guess fields_012 (fun _ => 7) (fun _ => 0)).map
        (fun r => (r.1, r.2 0, r.2 1, r.2 2)) = some (7, 0, 0, 0) :=
  ⟨rfl,
   (unseeded_guess_exhaustive two_triads fields_012 (fun _ => 7) (fun _ => 0) rfl).imp
     (fun _ h => ⟨h.1, h.2.1⟩),
   two_triads_unseeded_eval⟩

/-! ## Frame and tie-break of the searches -/

theorem closest_triad_id (self : Path_Initializer) (u v t : ℚ) (id : Nat) (d : ℚ)
    (c : Nat × ℚ) (h : self.closest_triad u v t id d = some c) : c.1 = id := by
  unfold Path_Initializer.closest_triad at h
  simp only at h
  split at h
  · simp only [Option.some.injEq] at h
    rw [← h]
  · cases h

theorem seeded_returns (self : Path_Initializer) (F : Field_Names)
    (neighbor : Nat → Nat → Option Nat) (gamma : (Nat → ℚ) → ℚ)
    (deformation : Nat → ℚ) (u v t : ℚ) (hk : 0 < self.num_neighbors_)
    (hvalid : ∀ neigh, neigh < self.num_neighbors_ →
      ∃ j, neighbor (size_t_of_int (-1)) neigh = some j ∧ j < self.point_cloud_.length) :
    ∃ r, self.initial_guess_seeded F neighbor gamma deformation u v t = some r := by
  obtain ⟨d0, hd0⟩ := closest_triad_caller_id self u v t (size_t_of_int (-1)) 0 hk
  unfold Path_Initializer.initial_guess_seeded
  simp only [hd0]
  obtain ⟨st', hst'⟩ := seeded_loop_returns self F neighbor gamma (size_t_of_int (-1))
    (List.range self.num_neighbors_)
    (fun n hn => hvalid n (List.mem_range.mp hn))
    { deformation := write_uvt F deformation u v t, best_u := u, best_v := v, best_t := t,
      best_gamma := gamma (write_uvt F deformation u v t) }
  rw [hst']
  exact ⟨_, rfl⟩

theorem unseeded_returns (self : Path_Initializer) (F : Field_Names)
    (gamma : (Nat → ℚ) → ℚ) (deformation : Nat → ℚ)
    (hN : self.num_triads_ = self.point_cloud_.length) :
    ∃ r, self.initial_guess F gamma deformation = some r := by
  unfold Path_Initializer.initial_guess
  simp only [unseeded_loop_all self F gamma _ hN]
  exact ⟨_, rfl⟩

/-- A seeded call that returns: the state after the loop, the candidates scanned, and the
returned pair. -/
theorem seeded_unfold (self : Path_Initializer) (F : Field_Names)
    (neighbor : Nat → Nat → Option Nat) (gamma : (Nat → ℚ) → ℚ)
    (deformation : Nat → ℚ) (u v t : ℚ) (r : ℚ × (Nat → ℚ))
    (h : self.initial_guess_seeded F neighbor gamma deformation u v t = some r) :
    ∃ st : Search_State,
      seeded_loop self F neighbor gamma (size_t_of_int (-1)) (List.range self.num_neighbors_)
        { deformation := write_uvt F deformation u v t, best_u := u, best_v := v, best_t := t,
          best_gamma := gamma (write_uvt F deformation u v t) } = some st
      ∧ r = (st.best_gamma, write_uvt F st.deformation st.best_u st.best_v st.best_t) := by
  unfold Path_Initializer.initial_guess_seeded at h
  simp only at h
  cases hc : self.closest_triad u v t (size_t_of_int (-1)) 0 with
  | none => rw [hc] at h; cases h
  | some c =>
    have hid := closest_triad_id self u v t _ _ c hc
    obtain ⟨id, d⟩ := c
    simp only at hid
    subst hid
    rw [hc] at h
    simp only at h
    split at h
    · cases h
    · rename_i st hl
      simp only [Option.some.injEq] at h
      exact ⟨st, hl, h.symm⟩

theorem unseeded_unfold (self : Path_Initializer) (F : Field_Names)
    (gamma : (Nat → ℚ) → ℚ) (deformation : Nat → ℚ) (r : ℚ × (Nat → ℚ))
    (h : self.initial_guess F gamma deformation = some r) :
    ∃ st : Search_State,
      unseeded_loop self F gamma (List.range self.num_triads_)
        { deformation := deformation, best_u := 0, best_v := 0, best_t := 0,
          best_gamma := 100 } = some st
      ∧ r = (st.best_gamma, write_uvt F st.deformation st.best_u st.best_v st.best_t) := by
  unfold Path_Initializer.initial_guess at h
  simp only at h
  split at h
  · cases h
  · rename_i st hl
    simp only [Option.some.injEq] at h
    exact ⟨st, hl, h.symm⟩

/-- C12: for both `initial_guess` overloads, every entry of the deformation buffer at a position
other than `DISPLACEMENT_X`, `DISPLACEMENT_Y` and `ROTATION_Z` has after the call the value
it had before it (the oracle reads the buffer and does not write it). -/
theorem initial_guess_frame (self : Path_Initializer) (F : Field_Names)
    (neighbor : Nat → Nat → Option Nat) (gamma : (Nat → ℚ) → ℚ)
    (deformation : Nat → ℚ) (u v t : ℚ) (n : Nat)
    (hx : n ≠ F.DISPLACEMENT_X) (hy : n ≠ F.DISPLACEMENT_Y) (hz : n ≠ F.ROTATION_Z) :
    (∀ r, self.initial_guess_seeded F neighbor gamma deformation u v t = some r →
        r.2 n = deformation n)
    ∧ (∀ r, self.initial_guess F gamma deformation = some r → r.2 n = deformation n) := by
  constructor
  · intro r h
    obtain ⟨st, hl, rfl⟩ := seeded_unfold self F neighbor gamma deformation u v t r h
    simp only
    rw [write_uvt_off F _ _ _ _ n hx hy hz]
    exact seeded_loop_off self F neighbor gamma _ deformation n hx hy hz _ _ _ hl
      (write_uvt_off F _ _ _ _ n hx hy hz)
  · intro r h
    obtain ⟨st, hl, rfl⟩ := unseeded_unfold self F gamma deformation r h
    simp only
    rw [write_uvt_off F _ _ _ _ n hx hy hz]
    exact unseeded_loop_off self F gamma deformation n hx hy hz _ _ _ hl rfl

/-- Witness for C12: the two-triad initializer, positions 0, 1, 2 written, and the buffer
whose entry `i` is `i`: entry 3 is still 3 after either call. -/
theorem initial_guess_frame_witness :
    (∃ r, two_triads.initial_guess_seeded fields_012 (fun _ _ => some 0) (fun d => d 0)
          (fun i => (i : ℚ)) 1 0 0 = some r ∧ r.2 3 = (fun i : Nat => (i : ℚ)) 3)
    ∧ (∃ r, two_triads.initial_guess fields_012 (fun d => d 0) (fun i => (i : ℚ)) = some r
          ∧ r.2 3 = (fun i : Nat => (i : ℚ)) 3) :=
  have T := initial_guess_frame two_triads fields_012 (fun _ _ => some 0) (fun d => d 0)
    (fun i => (i : ℚ)) 1 0 0 3 (by decide) (by decide) (by decide)
  have hs := seeded_returns two_triads fields_012 (fun _ _ => some 0) (fun d => d 0)
    (fun i => (i : ℚ)) 1 0 0 (by decide) (fun _ _ => ⟨0, rfl, by decide⟩)
  have hu := unseeded_returns two_triads fields_012 (fun d => d 0) (fun i => (i : ℚ)) rfl
  ⟨⟨hs.choose, hs.choose_spec, T.1 _ hs.choose_spec⟩,
   ⟨hu.choose, hu.choose_spec, T.2 _ hu.choose_spec⟩⟩

/-- C13: for every path file, construction with `num_neighbors = 0` fails, at the assertion
`num_neighbors_ > 0`, and no initializer is produced; for every `num_neighbors`, construction
from a path file with zero lines fails as well (at the assertion `num_triads_ > 0` when
`num_neighbors > 0`). -/
theorem construct_rejects (path_file : Option (List (ℚ × ℚ × ℚ))) (num_neighbors : Nat) :
    Path_Initializer.construct path_file 0 = Except.error Ctor_Error.assert_num_neighbors
    ∧ (∀ self, Path_Initializer.construct path_file 0 ≠ Except.ok self)
    ∧ Path_Initializer.construct (some []) num_neighbors
        = Except.error (if num_neighbors = 0 then Ctor_Error.assert_num_neighbors
            else Ctor_Error.assert_num_triads)
    ∧ (∀ self, Path_Initializer.construct (some []) num_neighbors ≠ Except.ok self) := by
  have h0 : Path_Initializer.construct path_file 0
      = Except.error Ctor_Error.assert_num_neighbors := by
    unfold Path_Initializer.construct
    rw [if_pos (by decide)]
  have h1 : Path_Initializer.construct (some []) num_neighbors
      = Except.error (if num_neighbors = 0 then Ctor_Error.assert_num_neighbors
          else Ctor_Error.assert_num_triads) := by
    unfold Path_Initializer.construct
    by_cases hk : num_neighbors = 0
    · subst hk
      rw [if_pos (by decide), if_pos rfl]
    · rw [if_neg (by omega), if_neg hk]
      simp only [read_triads]
      rw [if_pos (by decide)]
  refine ⟨h0, ?_, h1, ?_⟩
  · intro self hs
    rw [h0] at hs
    cases hs
  · intro self hs
    rw [h1] at hs
    cases hs

theorem construct_one_triad_two_neighbors :
    Path_Initializer.construct (some [(0, 0, 0)]) 2
      = Except.ok
        { num_triads_ := 1, num_neighbors_ := 2, triads_ := [def_triad.mk 0 0 0],
          point_cloud_ := [Point.mk 0 0 0], neighbors_ := [0, 0] } := by
  have q0 : quantize 0 0 0 = def_triad.mk 0 0 0 := by simpa using quantize_int 0 0 0
  have hr : read_triads [(0, 0, 0)] [] = [def_triad.mk 0 0 0] := by
    simp only [read_triads, q0, set_insert]
  rw [construct_of_lines _ 2 (by decide) (by rw [hr]; decide), hr]
  norm_num [make_point_cloud, make_neighbors, neighbor_loop, knnSearch,
    knn_result, overwrite_front, fill_row, dist_sqr, List.enum, List.enumFrom,
    List.range, List.range.loop, List.replicate]

/-- C14, counterexample: construction from the single line `0 0 0` with `num_neighbors = 2`
succeeds, with `num_triads_ = 1 < 2 = num_neighbors_`. -/
theorem construct_accepts_k_above_size :
    Path_Initializer.construct (some [(0, 0, 0)]) 2
      = Except.ok
        { num_triads_ := 1, num_neighbors_ := 2, triads_ := [def_triad.mk 0 0 0],
          point_cloud_ := [Point.mk 0 0 0], neighbors_ := [0, 0] }
    ∧ ¬ (∀ self, Path_Initializer.construct (some [(0, 0, 0)]) 2 = Except.ok self →
          1 ≤ self.num_neighbors_ ∧ self.num_neighbors_ ≤ self.num_triads_) := by
  refine ⟨construct_one_triad_two_neighbors, ?_⟩
  intro h
  have := (h _ construct_one_triad_two_neighbors).2
  simp at this

/-- C14, amended: every successful construction has `num_neighbors_` equal to the requested
`num_neighbors`, `1 ≤ num_neighbors_` and `1 ≤ num_triads_`; `num_neighbors_` is not bounded
by `num_triads_`. -/
theorem construct_neighbors_pos (path_file : Option (List (ℚ × ℚ × ℚ))) (num_neighbors : Nat)
    (self : Path_Initializer)
    (h : Path_Initializer.construct path_file num_neighbors = Except.ok self) :
    self.num_neighbors_ = num_neighbors ∧ 1 ≤ self.num_neighbors_ ∧ 1 ≤ self.num_triads_ := by
  obtain ⟨hk, lines, _, hpos, rfl⟩ := construct_ok h
  exact ⟨rfl, hk, hpos⟩

/-- Witness for C14 (amended): the two-triad initializer, built with one neighbor. -/
theorem construct_neighbors_pos_witness :
    Path_Initializer.construct (some [(0, 0, 0), (1, 0, 0)]) 1 = Except.ok two_triads
    ∧ two_triads.num_neighbors_ = 1 ∧ 1 ≤ two_triads.num_neighbors_
    ∧ 1 ≤ two_triads.num_triads_ :=
  ⟨construct_two_triads, construct_neighbors_pos _ 1 two_triads construct_two_triads⟩

/-! ## End-to-end scenario -/

theorem read_triads_three_samples :
    read_triads [(10.1, 20.3, 0.004), (10.3, 20.3, 0.006), (50.0, 50.0, 0.5)] []
      = [def_triad.mk 10 20.5 0, def_triad.mk 10.5 20.5 0.01, def_triad.mk 50 50 0.5] := by
  have q1 : quantize 10.1 20.3 0.004 = def_triad.mk 10 20.5 0 := by
    have h1 : ⌊(10.1 : ℚ) * 2 + 0.5⌋ = 20 := by norm_num [Int.floor_eq_iff]
    have h2 : ⌊(20.3 : ℚ) * 2 + 0.5⌋ = 41 := by norm_num [Int.floor_eq_iff]
    have h3 : ⌊(0.004 : ℚ) * 100 + 0.5⌋ = 0 := by norm_num [Int.floor_eq_iff]
    simp only [quantize, h1, h2, h3]
    norm_num
  have q2 : quantize 10.3 20.3 0.006 = def_triad.mk 10.5 20.5 0.01 := by
    have h1 : ⌊(10.3 : ℚ) * 2 + 0.5⌋ = 21 := by norm_num [Int.floor_eq_iff]
    have h2 : ⌊(20.3 : ℚ) * 2 + 0.5⌋ = 41 := by norm_num [Int.floor_eq_iff]
    have h3 : ⌊(0.006 : ℚ) * 100 + 0.5⌋ = 1 := by norm_num [Int.floor_eq_iff]
    simp only [quantize, h1, h2, h3]
    norm_num
  have q3 : quantize 50.0 50.0 0.5 = def_triad.mk 50 50 0.5 := by
    have h1 : ⌊(50.0 : ℚ) * 2 + 0.5⌋ = 100 := by norm_num [Int.floor_eq_iff]
    have h3 : ⌊(0.5 : ℚ) * 100 + 0.5⌋ = 50 := by norm_num [Int.floor_eq_iff]
    simp only [quantize, h1, h3]
    norm_num
  simp only [read_triads, q1, q2, q3]
  norm_num [set_insert, operator_lt]

/-- C15: the three samples `(10.1, 20.3, 0.004)`, `(10.3, 20.3, 0.006)`, `(50.0, 50.0, 0.5)`
give the catalog `(10, 20.5, 0)`, `(10.5, 20.5, 0.01)`, `(50, 50, 0.5)` in this order, and a
construction from them with any `num_neighbors ≥ 1` succeeds with exactly 3 catalog entries,
the point cloud holding them at the ids 0, 1 and 2. -/
theorem end_to_end_three_samples :
    read_triads [(10.1, 20.3, 0.004), (10.3, 20.3, 0.006), (50.0, 50.0, 0.5)] []
      = [def_triad.mk 10 20.5 0, def_triad.mk 10.5 20.5 0.01, def_triad.mk 50 50 0.5]
    ∧ ∀ k : Nat, ∃ self,
        Path_Initializer.construct
          (some [(10.1, 20.3, 0.004), (10.3, 20.3, 0.006), (50.0, 50.0, 0.5)]) (k + 1)
          = Except.ok self
        ∧ self.num_triads_ = 3
        ∧ self.triads_
            = [def_triad.mk 10 20.5 0, def_triad.mk 10.5 20.5 0.01, def_triad.mk 50 50 0.5]
        ∧ self.point_cloud_[0]? = some (Point.mk 10 20.5 0)
        ∧ self.point_cloud_[1]? = some (Point.mk 10.5 20.5 0.01)
        ∧ self.point_cloud_[2]? = some (Point.mk 50 50 0.5)
        ∧ self.point_cloud_.length = 3 := by
  refine ⟨read_triads_three_samples, fun k => ⟨_, construct_of_lines _ (k + 1)
    (Nat.succ_pos k) (by rw [read_triads_three_samples]; decide), ?_⟩⟩
  simp only
  rw [read_triads_three_samples]
  simp [make_point_cloud]

/-! ## Projective transform -/

theorem project_eval (T : Triangulation) (p0 p1 p2 p3 p4 p5 p6 p7 xl yl : ℚ) :
    (T.set_projectives [p0, p1, p2, p3, p4, p5, p6, p7]).project_left_to_right_sensor_coords
        xl yl
      = ((p0 * xl + p1 * yl + p2) / (p6 * xl + p7 * yl + 1),
         (p3 * xl + p4 * yl + p5) / (p6 * xl + p7 * yl + 1)) := by
  simp [Triangulation.project_left_to_right_sensor_coords, Triangulation.set_projectives]

/-- C16: after `set_projectives` with the coefficients `p0..p7`, for a left point with
`p6*xl + p7*yl + 1 ≠ 0`, `project_left_to_right_sensor_coords` returns
`xr = (p0*xl + p1*yl + p2)/(p6*xl + p7*yl + 1)` and
`yr = (p3*xl + p4*yl + p5)/(p6*xl + p7*yl + 1)`, so that `xr` and `yr` times the denominator
are the two numerators; with the coefficients and the point `(75, 380)` of the test the
result is within 0.01 of `(91.166, 569.5026)`. -/
theorem projective_transform (T : Triangulation) (p0 p1 p2 p3 p4 p5 p6 p7 xl yl : ℚ)
    (hden : p6 * xl + p7 * yl + 1 ≠ 0) :
    (T.set_projectives [p0, p1, p2, p3, p4, p5, p6, p7]).project_left_to_right_sensor_coords
        xl yl
      = ((p0 * xl + p1 * yl + p2) / (p6 * xl + p7 * yl + 1),
         (p3 * xl + p4 * yl + p5) / (p6 * xl + p7 * yl + 1))
    ∧ ((T.set_projectives [p0, p1, p2, p3, p4, p5, p6, p7]).project_left_to_right_sensor_coords
        xl yl).1 * (p6 * xl + p7 * yl + 1) = p0 * xl + p1 * yl + p2
    ∧ ((T.set_projectives [p0, p1, p2, p3, p4, p5, p6, p7]).project_left_to_right_sensor_coords
        xl yl).2 * (p6 * xl + p7 * yl + 1) = p3 * xl + p4 * yl + p5
    ∧ |((T.set_projectives [1.5, 0.03, -25.85, 0.3, 1.6, -18.0, 0.0005, 0.0001]
          ).project_left_to_right_sensor_coords 75 380).1 - 91.166| ≤ 0.01
    ∧ |((T.set_projectives [1.5, 0.03, -25.85, 0.3, 1.6, -18.0, 0.0005, 0.0001]
          ).project_left_to_right_sensor_coords 75 380).2 - 569.5026| ≤ 0.01 := by
  refine ⟨project_eval T _ _ _ _ _ _ _ _ _ _, ?_, ?_, ?_, ?_⟩
  · rw [project_eval]
    exact div_mul_cancel₀ _ hden
  · rw [project_eval]
    exact div_mul_cancel₀ _ hden
  · rw [project_eval, abs_le]
    constructor <;> norm_num
  · rw [project_eval, abs_le]
    constructor <;> norm_num

/-- Witness for C16: the coefficients and the left point of the test; the denominator is
`1.0755`. -/
theorem projective_transform_witness :
    (0.0005 : ℚ) * 75 + 0.0001 * 380 + 1 ≠ 0
    ∧ ((Triangulation.mk []).set_projectives
          [1.5, 0.03, -25.85, 0.3, 1.6, -18.0, 0.0005, 0.0001]
        ).project_left_to_right_sensor_coords 75 380
      = (((1.5 : ℚ) * 75 + 0.03 * 380 + -25.85) / (0.0005 * 75 + 0.0001 * 380 + 1),
         ((0.3 : ℚ) * 75 + 1.6 * 380 + -18.0) / (0.0005 * 75 + 0.0001 * 380 + 1)) :=
  ⟨by norm_num,
   (projective_transform (Triangulation.mk []) 1.5 0.03 (-25.85) 0.3 1.6 (-18.0) 0.0005 0.0001
     75 380 (by norm_num)).1⟩

/-! ## The comparator as a strict weak ordering -/

theorem operator_lt_false_iff (a b : def_triad) :
    (operator_lt a b = false ∧ operator_lt b a = false) ↔ (a.u_ = b.u_ ∧ a.v_ = b.v_) := by
  have hab := operator_lt_iff a b
  have hba := operator_lt_iff b a
  constructor
  · rintro ⟨h1, h2⟩
    have n1 : ¬ (a.u_ < b.u_ ∨ (a.u_ = b.u_ ∧ a.v_ < b.v_)) := fun h => by
      rw [hab.mpr h] at h1; cases h1
    have n2 : ¬ (b.u_ < a.u_ ∨ (b.u_ = a.u_ ∧ b.v_ < a.v_)) := fun h => by
      rw [hba.mpr h] at h2; cases h2
    push_neg at n1 n2
    have hu : a.u_ = b.u_ := le_antisymm n2.1 n1.1
    exact ⟨hu, le_antisymm (n2.2 hu.symm) (n1.2 hu)⟩
  · rintro ⟨hu, hv⟩
    constructor
    · cases h : operator_lt a b
      · rfl
      · rcases hab.mp h with h | ⟨_, h⟩
        · exact absurd h (by rw [hu]; exact lt_irrefl _)
        · exact absurd h (by rw [hv]; exact lt_irrefl _)
    · cases h : operator_lt b a
      · rfl
      · rcases hba.mp h with h | ⟨_, h⟩
        · exact absurd h (by rw [hu]; exact lt_irrefl _)
        · exact absurd h (by rw [hv]; exact lt_irrefl _)

/-- C19: the code's `operator<` is a strict weak ordering: it is irreflexive, transitive, and
incomparability (neither `a < b` nor `b < a`) is transitive. -/
theorem operator_lt_strict_weak (a b c : def_triad) :
    operator_lt a a = false
    ∧ (operator_lt a b = true → operator_lt b c = true → operator_lt a c = true)
    ∧ (operator_lt a b = false ∧ operator_lt b a = false →
        operator_lt b c = false ∧ operator_lt c b = false →
        operator_lt a c = false ∧ operator_lt c a = false) := by
  refine ⟨?_, operator_lt_trans, ?_⟩
  · exact ((operator_lt_false_iff a a).mpr ⟨rfl, rfl⟩).1
  · intro h1 h2
    rw [operator_lt_false_iff] at *
    exact ⟨h1.1.trans h2.1, h1.2.trans h2.2⟩

/-- Witness for C19: transitivity at `(0,0,0) < (1,0,0) < (2,0,0)`, and incomparability at
`(0,0,0)`, `(0,0,1)`, `(0,0,2)`, which differ in `t` only. -/
theorem operator_lt_strict_weak_witness :
    (operator_lt (def_triad.mk 0 0 0) (def_triad.mk 1 0 0) = true
      ∧ operator_lt (def_triad.mk 1 0 0) (def_triad.mk 2 0 0) = true
      ∧ operator_lt (def_triad.mk 0 0 0) (def_triad.mk 2 0 0) = true)
    ∧ ((operator_lt (def_triad.mk 0 0 0) (def_triad.mk 0 0 1) = false
        ∧ operator_lt (def_triad.mk 0 0 1) (def_triad.mk 0 0 0) = false)
      ∧ (operator_lt (def_triad.mk 0 0 1) (def_triad.mk 0 0 2) = false
        ∧ operator_lt (def_triad.mk 0 0 2) (def_triad.mk 0 0 1) = false)
      ∧ (operator_lt (def_triad.mk 0 0 0) (def_triad.mk 0 0 2) = false
        ∧ operator_lt (def_triad.mk 0 0 2) (def_triad.mk 0 0 0) = false)) :=
  have h01 : operator_lt (def_triad.mk 0 0 0) (def_triad.mk 1 0 0) = true := by
    norm_num [operator_lt]
  have h12 : operator_lt (def_triad.mk 1 0 0) (def_triad.mk 2 0 0) = true := by
    norm_num [operator_lt]
  have i01 : operator_lt (def_triad.mk 0 0 0) (def_triad.mk 0 0 1) = false
      ∧ operator_lt (def_triad.mk 0 0 1) (def_triad.mk 0 0 0) = false := by
    norm_num [operator_lt]
  have i12 : operator_lt (def_triad.mk 0 0 1) (def_triad.mk 0 0 2) = false
      ∧ operator_lt (def_triad.mk 0 0 2) (def_triad.mk 0 0 1) = false := by
    norm_num [operator_lt]
  ⟨⟨h01, h12, (operator_lt_strict_weak _ _ _).2.1 h01 h12⟩,
   ⟨i01, i12, (operator_lt_strict_weak _ _ _).2.2 i01 i12⟩⟩

/-! ## Which sample survives deduplication -/

theorem same_uv_symm {a b : def_triad} (h : same_uv a b) : same_uv b a :=
  ⟨h.1.symm, h.2.symm⟩

theorem same_uv_trans {a b c : def_triad} (h1 : same_uv a b) (h2 : same_uv b c) :
    same_uv a c :=
  ⟨h1.1.trans h2.1, h1.2.trans h2.2⟩

theorem operator_lt_not_same_uv {a b : def_triad} (h : operator_lt a b = true) :
    ¬ same_uv a b := by
  intro hs
  have := ((operator_lt_false_iff a b).mpr hs).1
  rw [h] at this
  cases this

theorem read_triads_cons (l : ℚ × ℚ × ℚ) (rest : List (ℚ × ℚ × ℚ)) (acc : List def_triad) :
    read_triads (l :: rest) acc = read_triads rest (set_insert (quantize_line l) acc) := by
  obtain ⟨u, v, t⟩ := l
  rfl

theorem read_triads_append (l1 l2 : List (ℚ × ℚ × ℚ)) :
    ∀ acc : List def_triad, read_triads (l1 ++ l2) acc = read_triads l2 (read_triads l1 acc) := by
  induction l1 with
  | nil => intro acc; rfl
  | cons l rest ih =>
    intro acc
    rw [List.cons_append, read_triads_cons, read_triads_cons, ih]

/-- Membership after an insertion into a sorted sequence: the old elements, and the new one
when no element has its `(u, v)`. -/
theorem mem_set_insert_iff (x z : def_triad) {acc : List def_triad}
    (hacc : acc.Pairwise (fun a b => operator_lt a b = true)) :
    z ∈ set_insert x acc ↔ z ∈ acc ∨ (z = x ∧ ∀ y ∈ acc, ¬ same_uv x y) := by
  induction acc with
  | nil => simp [set_insert]
  | cons y0 ys ih =>
    have hy := List.pairwise_cons.mp hacc
    unfold set_insert
    split_ifs with h1 h2
    · have hno : ∀ y ∈ y0 :: ys, ¬ same_uv x y := by
        intro y hy'
        rcases List.mem_cons.mp hy' with rfl | hy'
        · exact operator_lt_not_same_uv h1
        · exact operator_lt_not_same_uv (operator_lt_trans h1 (hy.1 y hy'))
      constructor
      · intro hz
        rcases List.mem_cons.mp hz with rfl | hz
        · exact Or.inr ⟨rfl, hno⟩
        · exact Or.inl hz
      · rintro (hz | ⟨rfl, _⟩)
        · exact List.mem_cons_of_mem _ hz
        · exact List.mem_cons_self _ _
    · have hn0 : ¬ same_uv x y0 := fun hs => operator_lt_not_same_uv h2 (same_uv_symm hs)
      rw [List.mem_cons, ih hy.2, List.mem_cons]
      constructor
      · rintro (hz | hz | ⟨rfl, hno⟩)
        · exact Or.inl (Or.inl hz)
        · exact Or.inl (Or.inr hz)
        · refine Or.inr ⟨rfl, ?_⟩
          intro y hy'
          rcases List.mem_cons.mp hy' with rfl | hy'
          · exact hn0
          · exact hno y hy'
      · rintro ((hz | hz) | ⟨rfl, hno⟩)
        · exact Or.inl hz
        · exact Or.inr (Or.inl hz)
        · exact Or.inr (Or.inr ⟨rfl, fun y hy' => hno y (List.mem_cons_of_mem _ hy')⟩)
    · have hs : same_uv x y0 := by
        apply (operator_lt_false_iff x y0).mp
        constructor
        · cases h : operator_lt x y0
          · rfl
          · exact absurd h h1
        · cases h : operator_lt y0 x
          · rfl
          · exact absurd h h2
      constructor
      · exact fun hz => Or.inl hz
      · rintro (hz | ⟨_, hno⟩)
        · exact hz
        · exact absurd hs (hno y0 (List.mem_cons_self _ _))

/-- Inserting a triad whose `(u, v)` is already in the sorted sequence changes nothing. -/
theorem set_insert_eq_self (x : def_triad) {acc : List def_triad}
    (hacc : acc.Pairwise (fun a b => operator_lt a b = true))
    (hex : ∃ y ∈ acc, same_uv y x) : set_insert x acc = acc := by
  induction acc with
  | nil =>
    obtain ⟨y, hy, _⟩ := hex
    cases hy
  | cons y0 ys ih =>
    have hy := List.pairwise_cons.mp hacc
    obtain ⟨y, hym, hys⟩ := hex
    unfold set_insert
    split_ifs with h1 h2
    · exfalso
      rcases List.mem_cons.mp hym with rfl | hym
      · exact operator_lt_not_same_uv h1 (same_uv_symm hys)
      · exact operator_lt_not_same_uv (operator_lt_trans h1 (hy.1 y hym)) (same_uv_symm hys)
    · rcases List.mem_cons.mp hym with rfl | hym
      · exact absurd hys (operator_lt_not_same_uv h2)
      · rw [ih hy.2 ⟨y, hym, hys⟩]
    · rfl

/-- The catalog after reading `lines` into the sorted sequence `acc`: the elements of `acc`,
and for every `(u, v)` pair not in `acc`, the quantization of the earliest line with that
pair. -/
theorem mem_read_triads_iff (lines : List (ℚ × ℚ × ℚ)) :
    ∀ (acc : List def_triad), acc.Pairwise (fun a b => operator_lt a b = true) →
      ∀ x, x ∈ read_triads lines acc ↔
        x ∈ acc ∨ ((∀ y ∈ acc, ¬ same_uv y x) ∧ ∃ pre l post, lines = pre ++ l :: post
          ∧ quantize_line l = x ∧ ∀ l' ∈ pre, ¬ same_uv (quantize_line l') x) := by
  induction lines with
  | nil =>
    intro acc _ x
    simp [read_triads]
  | cons l0 rest ih =>
    intro acc hacc x
    rw [read_triads_cons, ih _ (set_insert_pairwise _ hacc)]
    constructor
    · rintro (hx | ⟨hno, pre, l, post, hl, hq, hpre⟩)
      · rcases (mem_set_insert_iff _ _ hacc).mp hx with hx | ⟨rfl, hno⟩
        · exact Or.inl hx
        · exact Or.inr ⟨fun y hy hs => hno y hy (same_uv_symm hs), [], l0, rest, rfl, rfl,
            fun l' hl' => by cases hl'⟩
      · have hacc' : ∀ y ∈ acc, ¬ same_uv y x := fun y hy =>
          hno y ((mem_set_insert_iff _ _ hacc).mpr (Or.inl hy))
        refine Or.inr ⟨hacc', l0 :: pre, l, post, by rw [hl]; rfl, hq, ?_⟩
        intro l' hl'
        rcases List.mem_cons.mp hl' with rfl | hl'
        · intro hs
          by_cases hex : ∃ y ∈ acc, same_uv y (quantize_line l')
          · obtain ⟨y, hy, hys⟩ := hex
            exact hacc' y hy (same_uv_trans hys hs)
          · refine hno (quantize_line l') ((mem_set_insert_iff _ _ hacc).mpr
              (Or.inr ⟨rfl, fun y hy hs' => hex ⟨y, hy, same_uv_symm hs'⟩⟩)) hs
        · exact hpre l' hl'
    · rintro (hx | ⟨hno, pre, l, post, hl, hq, hpre⟩)
      · exact Or.inl ((mem_set_insert_iff _ _ hacc).mpr (Or.inl hx))
      · cases pre with
        | nil =>
          simp only [List.nil_append, List.cons.injEq] at hl
          obtain ⟨rfl, rfl⟩ := hl
          refine Or.inl ((mem_set_insert_iff _ _ hacc).mpr (Or.inr ⟨hq.symm, ?_⟩))
          intro y hy hs
          rw [hq] at hs
          exact hno y hy (same_uv_symm hs)
        | cons l1 pre' =>
          simp only [List.cons_append, List.cons.injEq] at hl
          obtain ⟨rfl, rfl⟩ := hl
          refine Or.inr ⟨?_, pre', l, post, rfl, hq, fun l' hl' =>
            hpre l' (List.mem_cons_of_mem _ hl')⟩
          intro y hy
          rcases (mem_set_insert_iff _ _ hacc).mp hy with hy | ⟨rfl, _⟩
          · exact hno y hy
          · exact hpre l0 (List.mem_cons_self _ _)

/-- The first element of a list with a given property. -/
theorem exists_first {α : Type} (P : α → Prop) (l : List α) (h : ∃ a ∈ l, P a) :
    ∃ pre a post, l = pre ++ a :: post ∧ P a ∧ ∀ b ∈ pre, ¬ P b := by
  induction l with
  | nil =>
    obtain ⟨a, ha, _⟩ := h
    cases ha
  | cons a0 rest ih =>
    by_cases h0 : P a0
    · exact ⟨[], a0, rest, rfl, h0, fun b hb => by cases hb⟩
    · obtain ⟨a, ha, hP⟩ := h
      rcases List.mem_cons.mp ha with rfl | ha
      · exact absurd hP h0
      · obtain ⟨pre, a', post, hl, hP', hpre⟩ := ih ⟨a, ha, hP⟩
        refine ⟨a0 :: pre, a', post, by rw [hl]; rfl, hP', ?_⟩
        intro b hb
        rcases List.mem_cons.mp hb with rfl | hb
        · exact h0
        · exact hpre b hb

/-- C20: the catalog built from `lines` holds exactly one triad for each quantized `(u, v)`
pair occurring in the input (one exists for every line, and two catalog triads with the same
`(u, v)` are the same triad); every catalog triad is the quantization of the earliest line
having its quantized `(u, v)`, so its `t` is that line's quantized `t`; and a line whose
quantized `(u, v)` occurs on an earlier line does not change the catalog, whatever its `t`. -/
theorem dedup_keeps_first (lines : List (ℚ × ℚ × ℚ)) :
    (∀ l ∈ lines, ∃ x ∈ read_triads lines [], same_uv x (quantize_line l))
    ∧ (∀ x ∈ read_triads lines [], ∀ y ∈ read_triads lines [], same_uv x y → x = y)
    ∧ (∀ x ∈ read_triads lines [], ∃ pre l post, lines = pre ++ l :: post
        ∧ quantize_line l = x ∧ ∀ l' ∈ pre, ¬ same_uv (quantize_line l') x)
    ∧ (∀ pre l post, lines = pre ++ l :: post →
        (∃ l' ∈ pre, same_uv (quantize_line l') (quantize_line l)) →
        read_triads lines [] = read_triads (pre ++ post) []) := by
  have hmem := fun (ls : List (ℚ × ℚ × ℚ)) => mem_read_triads_iff ls [] List.Pairwise.nil
  have hexists : ∀ (ls : List (ℚ × ℚ × ℚ)), ∀ l ∈ ls,
      ∃ x ∈ read_triads ls [], same_uv x (quantize_line l) := by
    intro ls l hl
    obtain ⟨pre, l1, post, hls, hs, hpre⟩ :=
      exists_first (fun a => same_uv (quantize_line a) (quantize_line l)) ls ⟨l, hl, rfl, rfl⟩
    refine ⟨quantize_line l1, (hmem ls _).mpr (Or.inr ⟨(fun y hy => by cases hy),
      pre, l1, post, hls, rfl, ?_⟩), hs⟩
    intro l' hl' hs'
    exact hpre l' hl' (same_uv_trans hs' hs)
  refine ⟨hexists lines, ?_, ?_, ?_⟩
  · intro x hx y hy hs
    by_contra hne
    have hp : (read_triads lines []).Pairwise (fun a b => ¬ same_uv a b) :=
      (read_triads_pairwise lines [] List.Pairwise.nil).imp operator_lt_not_same_uv
    have hsym : Symmetric (fun a b : def_triad => ¬ same_uv a b) :=
      fun a b hab hba => hab (same_uv_symm hba)
    exact List.Pairwise.forall hsym hp hx hy hne hs
  · intro x hx
    rcases (hmem lines x).mp hx with hx | ⟨_, h⟩
    · cases hx
    · exact h
  · rintro pre l post rfl ⟨l', hl', hs⟩
    rw [read_triads_append, read_triads_cons, read_triads_append]
    obtain ⟨y, hy, hys⟩ := hexists pre l' hl'
    rw [set_insert_eq_self _ (read_triads_pairwise pre [] List.Pairwise.nil)
      ⟨y, hy, same_uv_trans hys hs⟩]

/-- Witness for C20: the lines `0 0 0`, `0 0 1`, `1 0 0`. The second line has the quantized
`(u, v)` of the first and a different `t`; the catalog is that of the lines `0 0 0`, `1 0 0`
and holds `(0, 0, 0)`, not `(0, 0, 1)`. -/
theorem dedup_keeps_first_witness :
    (∃ l' ∈ [((0 : ℚ), (0 : ℚ), (0 : ℚ))],
        same_uv (quantize_line l') (quantize_line (0, 0, 1)))
    ∧ read_triads [(0, 0, 0), (0, 0, 1), (1, 0, 0)] []
        = read_triads ([(0, 0, 0)] ++ [(1, 0, 0)]) []
    ∧ read_triads ([(0, 0, 0)] ++ [(1, 0, 0)]) [] = [def_triad.mk 0 0 0, def_triad.mk 1 0 0] :=
  have q0 : quantize_line (0, 0, 0) = def_triad.mk 0 0 0 := by
    simpa [quantize_line] using quantize_int 0 0 0
  have q1 : quantize_line (0, 0, 1) = def_triad.mk 0 0 1 := by
    simpa [quantize_line] using quantize_int 0 0 1
  have hex : ∃ l' ∈ [((0 : ℚ), (0 : ℚ), (0 : ℚ))],
      same_uv (quantize_line l') (quantize_line (0, 0, 1)) :=
    ⟨(0, 0, 0), List.mem_cons_self _ _, by rw [q0, q1]; exact ⟨rfl, rfl⟩⟩
  have hr : read_triads ([(0, 0, 0)] ++ [(1, 0, 0)]) []
      = [def_triad.mk 0 0 0, def_triad.mk 1 0 0] := by
    have e0 : quantize 0 0 0 = def_triad.mk 0 0 0 := by simpa using quantize_int 0 0 0
    have e1 : quantize 1 0 0 = def_triad.mk 1 0 0 := by simpa using quantize_int 1 0 0
    norm_num [read_triads, e0, e1, set_insert, operator_lt]
  ⟨hex,
   (dedup_keeps_first [(0, 0, 0), (0, 0, 1), (1, 0, 0)]).2.2.2 [(0, 0, 0)] (0, 0, 1)
     [(1, 0, 0)] rfl hex,
   hr⟩

/-! ## Content of the neighbor table -/

theorem length_knn_result (pts : List Point) (q : Point) (k : Nat) :
    (knn_result pts q k).length = min k pts.length := by
  simp [knn_result, List.length_insertionSort]

theorem knn_result_sorted (pts : List Point) (q : Point) (k : Nat) :
    (knn_result pts q k).Pairwise (fun a b => a.2 ≤ b.2) :=
  List.Pairwise.sublist (List.take_sublist _ _)
    (List.sorted_insertionSort (fun a b : Nat × ℚ => a.2 ≤ b.2) _)

theorem knn_result_mem {pts : List Point} {q : Point} {k : Nat} {c : Nat × ℚ}
    (h : c ∈ knn_result pts q k) : ∃ p, pts[c.1]? = some p ∧ c.2 = dist_sqr q p :=
  mem_candidates.mp
    ((List.perm_insertionSort (fun a b : Nat × ℚ => a.2 ≤ b.2) _).mem_iff.mp
      (List.mem_of_mem_take h))

theorem knn_result_ids_nodup (pts : List Point) (q : Point) (k : Nat) :
    ((knn_result pts q k).map Prod.fst).Nodup := by
  have hperm := List.perm_insertionSort (fun a b : Nat × ℚ => a.2 ≤ b.2)
    (pts.enum.map (fun ip => (ip.1, dist_sqr q ip.2)))
  have hL : ((pts.enum.map (fun ip => (ip.1, dist_sqr q ip.2))).map Prod.fst).Nodup := by
    rw [List.map_map]
    have : (Prod.fst ∘ fun ip : Nat × Point => (ip.1, dist_sqr q ip.2)) = Prod.fst := rfl
    rw [this, List.enum_map_fst]
    exact List.nodup_range _
  have hS := (hperm.map Prod.fst).nodup_iff.mpr hL
  unfold knn_result
  exact List.Nodup.sublist (List.Sublist.map _ (List.take_sublist _ _)) hS

/-- Every id that is not among the results is at least as far from the query as every
result. -/
theorem knn_result_nearest {pts : List Point} {q : Point} {k : Nat} {j : Nat} {p : Point}
    (hp : pts[j]? = some p) (hj : j ∉ (knn_result pts q k).map Prod.fst) :
    ∀ c ∈ knn_result pts q k, c.2 ≤ dist_sqr q p := by
  intro c hc
  have hsorted := List.sorted_insertionSort (fun a b : Nat × ℚ => a.2 ≤ b.2)
    (pts.enum.map (fun ip => (ip.1, dist_sqr q ip.2)))
  have hperm := List.perm_insertionSort (fun a b : Nat × ℚ => a.2 ≤ b.2)
    (pts.enum.map (fun ip => (ip.1, dist_sqr q ip.2)))
  have hmem : ((j, dist_sqr q p) : Nat × ℚ) ∈
      List.insertionSort (fun a b : Nat × ℚ => a.2 ≤ b.2)
        (pts.enum.map (fun ip => (ip.1, dist_sqr q ip.2))) :=
    hperm.mem_iff.mpr (mem_candidates.mpr ⟨p, hp, rfl⟩)
  rw [← List.take_append_drop k (List.insertionSort (fun a b : Nat × ℚ => a.2 ≤ b.2)
    (pts.enum.map (fun ip => (ip.1, dist_sqr q ip.2))))] at hsorted hmem
  rcases List.mem_append.mp hmem with hm | hm
  · exact absurd (List.mem_map.mpr ⟨_, hm, rfl⟩) hj
  · exact (List.pairwise_append.mp hsorted).2.2 c hc _ hm

theorem overwrite_front_full {α : Type} (found out : List α)
    (h : found.length = out.length) : overwrite_front found out = found := by
  unfold overwrite_front
  rw [List.drop_eq_nil_of_le (by omega), List.append_nil, ← h, List.take_length]

/-- C18: after a successful construction with `k = num_neighbors_ ≤ num_triads_`, for every
catalog id `i` with point `p`, the k-nearest query at `p` has exactly `k` results and the row
`neighbors_[i*k .. i*k + k-1]` is the list of their ids: pairwise distinct catalog ids, each
with its squared distance to `p`, in ascending distance, and every catalog id outside the row
is at least as far from `p` as every id of the row. -/
theorem neighbor_table_content (path_file : Option (List (ℚ × ℚ × ℚ))) (num_neighbors : Nat)
    (self : Path_Initializer)
    (h : Path_Initializer.construct path_file num_neighbors = Except.ok self)
    (hkN : self.num_neighbors_ ≤ self.num_triads_) (i : Nat) (p : Point)
    (hp : self.point_cloud_[i]? = some p) :
    (knn_result self.point_cloud_ p self.num_neighbors_).length = self.num_neighbors_
    ∧ (∀ j, j < self.num_neighbors_ →
        self.neighbors_[i * self.num_neighbors_ + j]?
          = ((knn_result self.point_cloud_ p self.num_neighbors_).map Prod.fst)[j]?)
    ∧ ((knn_result self.point_cloud_ p self.num_neighbors_).map Prod.fst).Nodup
    ∧ (knn_result self.point_cloud_ p self.num_neighbors_).Pairwise (fun a b => a.2 ≤ b.2)
    ∧ (∀ c ∈ knn_result self.point_cloud_ p self.num_neighbors_,
        ∃ q, self.point_cloud_[c.1]? = some q ∧ c.2 = dist_sqr p q)
    ∧ (∀ (j : Nat) (q : Point), self.point_cloud_[j]? = some q →
        j ∉ (knn_result self.point_cloud_ p self.num_neighbors_).map Prod.fst →
        ∀ c ∈ knn_result self.point_cloud_ p self.num_neighbors_, c.2 ≤ dist_sqr p q) := by
  obtain ⟨hk, lines, _, _, rfl⟩ := construct_ok h
  simp only at hkN hp ⊢
  have hlenpts : (make_point_cloud (read_triads lines [])).length
      = (read_triads lines []).length := by simp [make_point_cloud]
  have hlen : (knn_result (make_point_cloud (read_triads lines [])) p num_neighbors).length
      = num_neighbors := by
    rw [length_knn_result, hlenpts]
    exact Nat.min_eq_left hkN
  refine ⟨hlen, ?_, knn_result_ids_nodup _ _ _, knn_result_sorted _ _ _,
    fun c hc => knn_result_mem hc, fun j q hq hj => knn_result_nearest hq hj⟩
  intro j hj
  have hi : i < (read_triads lines []).length := by
    rcases Nat.lt_or_ge i (make_point_cloud (read_triads lines [])).length with hlt | hge
    · rw [← hlenpts]; exact hlt
    · rw [List.getElem?_eq_none hge] at hp; cases hp
  have hit : (read_triads lines [])[i]? = some ((read_triads lines [])[i]) :=
    List.getElem?_eq_getElem hi
  have hpe : Point.mk ((read_triads lines [])[i]).u_ ((read_triads lines [])[i]).v_
      ((read_triads lines [])[i]).t_ = p := by
    have := make_point_cloud_get _ i _ hit
    rw [hp] at this
    exact (Option.some.inj this).symm
  have hbound : (0 + i) * num_neighbors + j
      < (List.replicate ((read_triads lines []).length * num_neighbors) 0).length := by
    rw [List.length_replicate]
    calc (0 + i) * num_neighbors + j = i * num_neighbors + j := by rw [Nat.zero_add]
      _ < i * num_neighbors + num_neighbors := by omega
      _ = (i + 1) * num_neighbors := by ring
      _ ≤ (read_triads lines []).length * num_neighbors := Nat.mul_le_mul_right _ hi
  obtain ⟨ret0, dist0, hret0, hrow⟩ :=
    neighbor_loop_row (make_point_cloud (read_triads lines [])) num_neighbors
      (read_triads lines []) 0 (List.replicate num_neighbors 0)
      (List.replicate num_neighbors 0)
      (List.replicate ((read_triads lines []).length * num_neighbors) 0) i j _ hit hj hbound
      (List.length_replicate _ _)
  simp only [Nat.zero_add] at hrow
  unfold make_neighbors
  rw [hrow, hpe]
  have hfull : (knnSearch (make_point_cloud (read_triads lines [])) p num_neighbors ret0 dist0).1
      = (knn_result (make_point_cloud (read_triads lines [])) p num_neighbors).map Prod.fst := by
    unfold knnSearch
    exact overwrite_front_full _ _ (by rw [List.length_map, hlen, hret0])
  rw [hfull, List.getD_eq_getElem?_getD,
    List.getElem?_eq_getElem (by rw [List.length_map, hlen]; exact hj)]
  rfl

/-- Witness for C18: the two-triad initializer (`k = 1 ≤ 2`), row of id 1. -/
theorem neighbor_table_content_witness :
    Path_Initializer.construct (some [(0, 0, 0), (1, 0, 0)]) 1 = Except.ok two_triads
    ∧ two_triads.num_neighbors_ ≤ two_triads.num_triads_
    ∧ two_triads.point_cloud_[1]? = some (Point.mk 1 0 0)
    ∧ (∀ j, j < two_triads.num_neighbors_ →
        two_triads.neighbors_[1 * two_triads.num_neighbors_ + j]?
          = ((knn_result two_triads.point_cloud_ (Point.mk 1 0 0)
              two_triads.num_neighbors_).map Prod.fst)[j]?) :=
  ⟨construct_two_triads, by decide, rfl,
   (neighbor_table_content _ 1 two_triads construct_two_triads (by decide) 1 (Point.mk 1 0 0)
     rfl).2.1⟩

/-! ## Index safety of the neighbor table -/

theorem mem_overwrite_front {α : Type} {found out : List α} {x : α}
    (h : x ∈ overwrite_front found out) : x ∈ found ∨ x ∈ out := by
  unfold overwrite_front at h
  rcases List.mem_append.mp (List.mem_of_mem_take h) with h | h
  · exact Or.inl h
  · exact Or.inr (List.mem_of_mem_drop h)

theorem knn_result_id_lt {pts : List Point} {q : Point} {k : Nat} {x : Nat}
    (h : x ∈ (knn_result pts q k).map Prod.fst) : x < pts.length := by
  obtain ⟨c, hc, rfl⟩ := List.mem_map.mp h
  obtain ⟨p, hp, _⟩ := knn_result_mem hc
  rcases Nat.lt_or_ge c.1 pts.length with hlt | hge
  · exact hlt
  · rw [List.getElem?_eq_none hge] at hp; cases hp

/-- The index array after a query holds ids of the point cloud when it held ids before. -/
theorem knnSearch_indices_lt (pts : List Point) (q : Point) (k : Nat)
    (out_indices : List Nat) (out_distances_sq : List ℚ)
    (hout : ∀ x ∈ out_indices, x < pts.length) :
    ∀ x ∈ (knnSearch pts q k out_indices out_distances_sq).1, x < pts.length := by
  intro x hx
  unfold knnSearch at hx
  rcases mem_overwrite_front hx with hx | hx
  · exact knn_result_id_lt hx
  · exact hout x hx

theorem getD_lt (ret : List Nat) (i N : Nat) (hN : 0 < N) (hret : ∀ x ∈ ret, x < N) :
    ret.getD i 0 < N := by
  rw [List.getD_eq_getElem?_getD]
  cases h : ret[i]? with
  | none => exact hN
  | some a => exact hret a (List.getElem?_mem h)

theorem foldl_set_lt (ret : List Nat) (base N : Nat) (hN : 0 < N)
    (hret : ∀ x ∈ ret, x < N) (is : List Nat) :
    ∀ nb : List Nat, (∀ x ∈ nb, x < N) →
      ∀ x ∈ is.foldl (fun nb i => nb.set (base + i) (ret.getD i 0)) nb, x < N := by
  induction is with
  | nil => intro nb hnb; exact hnb
  | cons i rest ih =>
    intro nb hnb
    simp only [List.foldl_cons]
    refine ih _ ?_
    intro x hx
    rcases List.mem_or_eq_of_mem_set hx with hx | rfl
    · exact hnb x hx
    · exact getD_lt ret i N hN hret

theorem fill_row_lt (nb : List Nat) (id k : Nat) (ret : List Nat) (N : Nat) (hN : 0 < N)
    (hnb : ∀ x ∈ nb, x < N) (hret : ∀ x ∈ ret, x < N) :
    ∀ x ∈ fill_row nb id k ret, x < N :=
  foldl_set_lt ret (id * k) N hN hret (List.range k) nb hnb

theorem neighbor_loop_lt (pts : List Point) (k : Nat) (hN : 0 < pts.length)
    (rest : List def_triad) :
    ∀ (id : Nat) (ret : List Nat) (dist : List ℚ) (nb : List Nat),
      (∀ x ∈ ret, x < pts.length) → (∀ x ∈ nb, x < pts.length) →
      ∀ x ∈ neighbor_loop pts k rest id ret dist nb, x < pts.length := by
  induction rest with
  | nil => intro id ret dist nb _ hnb; exact hnb
  | cons it rest ih =>
    intro id ret dist nb hret hnb
    simp only [neighbor_loop]
    have hret1 := knnSearch_indices_lt pts (Point.mk it.u_ it.v_ it.t_) k ret dist hret
    exact ih _ _ _ _ hret1 (fill_row_lt nb id k _ pts.length hN hnb hret1)

/-- C21: after every successful construction, whatever `k ≥ 1` (also `k` greater than the
catalog size, where the query fills fewer than `k` slots and the other slots of `ret_index`
keep an earlier id or their initial 0), every entry of `neighbors_` is a catalog id
`< num_triads_`, so the point cloud has an entry at every id read from the table, in
particular at every id the table accessor returns. -/
theorem neighbor_table_ids_valid (path_file : Option (List (ℚ × ℚ × ℚ))) (num_neighbors : Nat)
    (self : Path_Initializer)
    (h : Path_Initializer.construct path_file num_neighbors = Except.ok self) :
    (∀ x ∈ self.neighbors_, x < self.num_triads_)
    ∧ (∀ (idx x : Nat), self.neighbors_[idx]? = some x →
        ∃ p, self.point_cloud_[x]? = some p)
    ∧ (∀ (triad_id neighbor_index neigh_id : Nat),
        self.neighbor triad_id neighbor_index = some neigh_id →
        ∃ p, self.point_cloud_[neigh_id]? = some p) := by
  obtain ⟨_, lines, _, hpos, rfl⟩ := construct_ok h
  have hlen : (make_point_cloud (read_triads lines [])).length
      = (read_triads lines []).length := by simp [make_point_cloud]
  have hall : ∀ x ∈ make_neighbors (read_triads lines [])
      (make_point_cloud (read_triads lines [])) (read_triads lines []).length num_neighbors,
      x < (make_point_cloud (read_triads lines [])).length := by
    unfold make_neighbors
    refine neighbor_loop_lt _ _ (by rw [hlen]; exact hpos) _ _ _ _ _ ?_ ?_
    · intro x hx
      rw [List.eq_of_mem_replicate hx, hlen]; exact hpos
    · intro x hx
      rw [List.eq_of_mem_replicate hx, hlen]; exact hpos
  refine ⟨fun x hx => by rw [← hlen]; exact hall x hx, ?_, ?_⟩
  · intro idx x hx
    exact ⟨_, List.getElem?_eq_getElem (hall x (List.getElem?_mem hx))⟩
  · intro triad_id neighbor_index neigh_id hn
    unfold Path_Initializer.neighbor at hn
    exact ⟨_, List.getElem?_eq_getElem (hall neigh_id (List.getElem?_mem hn))⟩

/-- Witness for C21: one catalog triad and `k = 2`; the table is `[0, 0]`. -/
theorem neighbor_table_ids_valid_witness :
    Path_Initializer.construct (some [(0, 0, 0)]) 2
      = Except.ok
        { num_triads_ := 1, num_neighbors_ := 2, triads_ := [def_triad.mk 0 0 0],
          point_cloud_ := [Point.mk 0 0 0], neighbors_ := [0, 0] }
    ∧ ∀ x ∈ [0, 0], x < 1 :=
  ⟨construct_one_triad_two_neighbors,
   (neighbor_table_ids_valid _ 2 _ construct_one_triad_two_neighbors).1⟩

/-! ## The sentinel of the unseeded search -/

/-- C22: when no catalog triad scores strictly below 100, the unseeded `initial_guess` returns
exactly 100 and the buffer after the call is the input buffer with 0, 0, 0 written to
`DISPLACEMENT_X`, `DISPLACEMENT_Y`, `ROTATION_Z` (the three positions being distinct, these
entries are 0), whether or not `(0, 0, 0)` is a catalog triad. -/
theorem unseeded_sentinel (self : Path_Initializer) (F : Field_Names)
    (gamma : (Nat → ℚ) → ℚ) (deformation : Nat → ℚ)
    (hN : self.num_triads_ = self.point_cloud_.length)
    (hno : ∀ p ∈ self.point_cloud_, ¬ gamma (write_uvt F deformation p.x p.y p.z) < 100) :
    self.initial_guess F gamma deformation = some (100, write_uvt F deformation 0 0 0)
    ∧ (F.DISPLACEMENT_X ≠ F.DISPLACEMENT_Y → F.DISPLACEMENT_X ≠ F.ROTATION_Z →
        F.DISPLACEMENT_Y ≠ F.ROTATION_Z →
        ∃ r, self.initial_guess F gamma deformation = some r ∧ r.1 = 100
          ∧ r.2 F.DISPLACEMENT_X = 0 ∧ r.2 F.DISPLACEMENT_Y = 0 ∧ r.2 F.ROTATION_Z = 0) := by
  have hmain : self.initial_guess F gamma deformation
      = some (100, write_uvt F deformation 0 0 0) := by
    unfold Path_Initializer.initial_guess
    simp only [unseeded_loop_all self F gamma _ hN]
    obtain ⟨hoff, hcase⟩ := scan_spec F gamma deformation self.point_cloud_
      { deformation := deformation, best_u := 0, best_v := 0, best_t := 0, best_gamma := 100 }
      (fun _ _ _ _ => rfl)
    rcases hcase with ⟨e1, e2, e3, e4, _⟩ | ⟨pre, p, post, hc, hp, _⟩
    · simp only at e1 e2 e3 e4
      rw [e1, e2, e3, e4, write_uvt_congr F _ deformation 0 0 0 hoff]
    · exact absurd hp (hno p (by rw [hc]; simp))
  refine ⟨hmain, fun hxy hxz hyz => ⟨_, hmain, rfl, ?_⟩⟩
  exact write_uvt_entries F deformation 0 0 0 hxy hxz hyz

/-- Witness for C22: the catalog `[(10, 20, 0)]`, which does not hold `(0, 0, 0)`, with the
constant oracle 200 and the buffer whose entries are all 5: the call returns 100 and writes
0, 0, 0, a buffer that the oracle scores 200. -/
theorem unseeded_sentinel_witness :
    Path_Initializer.initial_guess
        { num_triads_ := 1, num_neighbors_ := 1, triads_ := [def_triad.mk 10 20 0],
          point_cloud_ := [Point.mk 10 20 0], neighbors_ := [0] }
        fields_012 (fun _ => 200) (fun _ => 5)
      = some (100, write_uvt fields_012 (fun _ => 5) 0 0 0)
    ∧ write_uvt fields_012 (fun _ => 5) 0 0 0 0 = 0
    ∧ write_uvt fields_012 (fun _ => 5) 0 0 0 3 = 5
    ∧ (fun _ : Nat → ℚ => (200 : ℚ)) (write_uvt fields_012 (fun _ => 5) 0 0 0) ≠ 100 :=
  ⟨(unseeded_sentinel
      { num_triads_ := 1, num_neighbors_ := 1, triads_ := [def_triad.mk 10 20 0],
        point_cloud_ := [Point.mk 10 20 0], neighbors_ := [0] }
      fields_012 (fun _ => 200) (fun _ => 5) rfl (fun _ _ => by norm_num)).1,
   by norm_num [write_uvt, fields_012, Function.update],
   by norm_num [write_uvt, fields_012, Function.update],
   by norm_num⟩

end DICe
